import Mathlib

/-!
Verification development for the contextflow repository.

The development shallowly embeds the components the specification talks
about: the GitHub retry client (`src/integrations/github/client.py`), the
response-to-domain conversion with timestamp normalization
(`src/integrations/github/models.py`), the graph upsert statements issued by
the GitHub and Jira collectors (`src/integrations/github/collector.py`,
`src/integrations/jira/collector.py`), the collection orchestrator
(`collect_repository_data` / `collect_github_data`), and the two schema
managers (`src/graph/github_schema.py`, `src/neo4j_integration/schema.py`).
-/

/-! ## Configuration constants, from `src/config/github_config.py` -/

def GITHUB_MAX_RETRIES : Nat := 3

def GITHUB_RETRY_DELAY : Nat := 1

def GITHUB_COLLECT_ISSUES : Bool := true

def GITHUB_COLLECT_PROJECTS : Bool := true

def GITHUB_COLLECT_MILESTONES : Bool := true

def GITHUB_LABEL_REPOSITORY : String := "GitHubRepository"

def GITHUB_LABEL_ISSUE : String := "GitHubIssue"

def GITHUB_LABEL_PROJECT : String := "GitHubProject"

def GITHUB_LABEL_MILESTONE : String := "GitHubMilestone"

def REL_BELONGS_TO : String := "BELONGS_TO"

def REL_HOSTED_IN : String := "HOSTED_IN"

/-! ## Retry client model, from `GitHubClient._retry_on_exception`

`src/integrations/github/client.py` lines 46-92.  An exception raised by an
attempt is either a `GithubException` (with an HTTP status and a message
that may or may not mention the rate limit) or any other Python exception.
-/

/-- Exceptions an attempt can raise: `GithubException` with `e.status` and
whether the lowercased message contains the substring rate limit, or any
other exception (`except Exception` branch in the source). -/
inductive PyExc where
  | githubEx (status : Nat) (rateLimitMsg : Bool)
  | otherExc (tag : String)
deriving DecidableEq

/-- Outcome of a single call of the wrapped operation: a value together with
the `self.github.rate_limiting` pair when reading it succeeds (`none` models
the `AttributeError` branch, which leaves the cache untouched), or an
exception. -/
inductive AttemptOutcome (α : Type) where
  | ok (v : α) (rateInfo : Option (Int × Int))
  | exc (e : PyExc)
deriving DecidableEq

/-- The client's cached rate-limit state: `self._rate_limit_remaining` and
`self._rate_limit_reset`, both initialized to `None` in `__init__`. -/
structure RateCache where
  remaining : Option Int
  reset : Option Int
deriving DecidableEq

/-- The fresh cache set up by `GitHubClient.__init__`. -/
def freshRateCache : RateCache := ⟨none, none⟩

/-- Sleeps performed by the wrapper: the rate-limit gate sleep of
`_handle_rate_limit` (whose duration depends on wall-clock time), or an
exponential-backoff sleep of the given number of seconds. -/
inductive SleepEvent where
  | rateGate
  | backoff (seconds : Nat)
deriving DecidableEq

/-- Result of `_retry_on_exception`: the wrapped value, a re-raised
exception, or the bare `RuntimeError` raised after the loop; that
constructor carries only the formatted message string, mirroring
`RuntimeError(f"Failed after N attempts")` which attaches no underlying
error. -/
inductive RetryResult (α : Type) where
  | success (v : α)
  | raised (e : PyExc)
  | runtimeError (msg : String)
deriving DecidableEq

/-- `_handle_rate_limit` sleeps exactly when the cached remaining counter is
known and at most 0 and the cached reset time is truthy (Python treats both
`None` and `0` as falsy). -/
def gateFires (rc : RateCache) : Bool :=
  match rc.remaining, rc.reset with
  | some r, some t => decide (r ≤ 0) && decide (t ≠ 0)
  | _, _ => false

/-- After a successful attempt the cache is overwritten from
`self.github.rate_limiting` when available, otherwise left untouched. -/
def updateCache (rc : RateCache) : Option (Int × Int) → RateCache
  | some (r, t) => ⟨some r, some t⟩
  | none => rc

/-- The retry loop of `_retry_on_exception`: `remaining` counts the loop
iterations left (initially `GITHUB_MAX_RETRIES`), `attempt` is the Python
loop index.  Each iteration runs the gate, then the operation; a 403
rate-limit `GithubException` or a status at least 500 sleeps
`delay * 2 ^ attempt` and retries, any other `GithubException` is re-raised
at once, a non-`GithubException` is retried with the same backoff unless
this is the final attempt (`attempt < N - 1` fails), in which case it is
re-raised.  Falling out of the loop raises the bare `RuntimeError`. -/
def retryGo {α : Type} (N delay : Nat) (op : Nat → AttemptOutcome α) :
    Nat → Nat → RateCache → RetryResult α × RateCache × List SleepEvent
  | 0, _, rc => (.runtimeError ("Failed after " ++ toString N ++ " attempts"), rc, [])
  | remaining + 1, attempt, rc =>
    let gate : List SleepEvent := if gateFires rc then [.rateGate] else []
    match op attempt with
    | .ok v info => (.success v, updateCache rc info, gate)
    | .exc (.githubEx st rl) =>
      if st = 403 ∧ rl = true then
        let r := retryGo N delay op remaining (attempt + 1) rc
        (r.1, r.2.1, gate ++ [.backoff (delay * 2 ^ attempt)] ++ r.2.2)
      else if 500 ≤ st then
        let r := retryGo N delay op remaining (attempt + 1) rc
        (r.1, r.2.1, gate ++ [.backoff (delay * 2 ^ attempt)] ++ r.2.2)
      else
        (.raised (.githubEx st rl), rc, gate)
    | .exc (.otherExc tag) =>
      if 0 < remaining then
        let r := retryGo N delay op remaining (attempt + 1) rc
        (r.1, r.2.1, gate ++ [.backoff (delay * 2 ^ attempt)] ++ r.2.2)
      else
        (.raised (.otherExc tag), rc, gate)

/-- `_retry_on_exception` with retry count `N` and base delay `delay`,
starting from loop index 0 with rate cache `rc`. -/
def retry_on_exception {α : Type} (N delay : Nat) (op : Nat → AttemptOutcome α)
    (rc : RateCache) : RetryResult α × RateCache × List SleepEvent :=
  retryGo N delay op N 0 rc

/-! ## Lazy sequences under the retry wrapper, from `GitHubClient.get_issues`

`get_issues` (client.py lines 119-148) passes the generator function
`_get_issues` to `_retry_on_exception`.  Calling a Python generator function
returns a generator object immediately without executing any of its body, so
the wrapped call cannot raise; the elements are then pulled by the `for`
loop outside the wrapper.  A stream is modelled as the list of pull results:
each pull yields an item or raises an exception. -/

/-- Consuming a generator: pulls items in order and propagates the first
exception raised during a pull to the caller. -/
def consumeStream {α : Type} : List (Except PyExc α) → Except PyExc (List α)
  | [] => .ok []
  | .error e :: _ => .error e
  | .ok a :: rest => (consumeStream rest).map (a :: ·)

/-- `get_issues` as executed: `_retry_on_exception` is applied to the
generator construction, which always succeeds on the first attempt (the
constant `.ok stream none` models that creating the generator raises
nothing), and the stream is then consumed outside the wrapper. -/
def get_issues_pull {α : Type} (N delay : Nat) (stream : List (Except PyExc α))
    (rc : RateCache) : Except PyExc (List α) × List SleepEvent :=
  match retry_on_exception N delay (fun _ => .ok stream none) rc with
  | (.success gen, _, sleeps) => (consumeStream gen, sleeps)
  | (.raised e, _, sleeps) => (.error e, sleeps)
  | (.runtimeError m, _, sleeps) => (.error (.otherExc m), sleeps)

/-! ## Python call binding, for the collector-to-client calls (claim C3)

`GitHubCollector.collect_issues` calls
`self.github_client.get_issues(repo_full_name, state="all")` against the
signature `get_issues(self, owner, repo, state="all")` (and similarly for
projects and milestones).  Python binds positional arguments to parameters
in order and raises `TypeError` when a required positional parameter is left
unbound. -/

/-- Positional binding: pairs the declared positional parameters with the
supplied positional arguments in order; parameters beyond the supplied
arguments stay unbound. -/
def posBind (params : List String) (args : List String) : List (String × String) :=
  params.zip args

/-- Binding a call of `get_issues(self, owner, repo, state="all")` given the
positional arguments after `self` and the optional `state` keyword.  It
succeeds only when both `owner` and `repo` receive a value; otherwise the
call raises `TypeError` naming the missing parameter. -/
def bindOwnerRepoState (pos : List String) (stateKw : Option String) :
    Except String (String × String × String) :=
  match pos, stateKw with
  | [o, r], some s => .ok (o, r, s)
  | [o, r], none => .ok (o, r, "all")
  | [o, r, s], none => .ok (o, r, s)
  | [_], _ => .error "TypeError: missing 1 required positional argument: repo"
  | [], _ => .error "TypeError: missing 2 required positional arguments: owner and repo"
  | _, _ => .error "TypeError: too many positional arguments"

/-- Binding a call of `get_projects(self, owner, repo)`: same positional
parameters, no `state` keyword parameter is supplied by the collector. -/
def bindOwnerRepo (pos : List String) : Except String (String × String) :=
  match pos with
  | [o, r] => .ok (o, r)
  | [_] => .error "TypeError: missing 1 required positional argument: repo"
  | [] => .error "TypeError: missing 2 required positional arguments: owner and repo"
  | _ => .error "TypeError: too many positional arguments"

/-- The call issued by `collect_issues` (collector.py line 103): one
positional argument holding the full scope string, plus `state="all"`. -/
def collectIssuesCall (scope : String) : List String × Option String :=
  ([scope], some "all")

/-- The call issued by `collect_projects` (collector.py line 152): one
positional argument holding the full scope string. -/
def collectProjectsCall (scope : String) : List String :=
  [scope]

/-- The call issued by `collect_milestones` (collector.py line 197): one
positional argument holding the full scope string, plus `state="all"`. -/
def collectMilestonesCall (scope : String) : List String × Option String :=
  ([scope], some "all")

/-! ## Timestamp normalization, from `src/integrations/github/models.py`

Every response-to-domain conversion runs
`datetime.fromisoformat(s.replace('Z', '+00:00'))`.  `PyDatetime` models a
`datetime.datetime` value; `tzOffsetMinutes = none` models a naive datetime
(no `tzinfo`), `some k` models `timezone(timedelta(minutes = k))`. -/

structure PyDatetime where
  year : Nat
  month : Nat
  day : Nat
  hour : Nat
  minute : Nat
  second : Nat
  microsecond : Nat
  tzOffsetMinutes : Option Int
deriving DecidableEq

/-- Numeric value of a decimal digit character, if it is one. -/
def digitVal (c : Char) : Option Nat :=
  if c.isDigit then some (c.toNat - 48) else none

/-- Parse one decimal digit from the front. -/
def parseDigit : List Char → Option (Nat × List Char)
  | c :: rest =>
    match digitVal c with
    | some d => some (d, rest)
    | none => none
  | [] => none

/-- Parse exactly two decimal digits from the front. -/
def parse2 (cs : List Char) : Option (Nat × List Char) :=
  match parseDigit cs with
  | none => none
  | some (d1, cs1) =>
    match parseDigit cs1 with
    | none => none
    | some (d2, cs2) => some (d1 * 10 + d2, cs2)

/-- Parse exactly four decimal digits from the front. -/
def parse4 (cs : List Char) : Option (Nat × List Char) :=
  match parse2 cs with
  | none => none
  | some (v1, cs1) =>
    match parse2 cs1 with
    | none => none
    | some (v2, cs2) => some (v1 * 100 + v2, cs2)

/-- Consume one expected character from the front. -/
def expectChar (c : Char) : List Char → Option (List Char)
  | x :: rest => if x = c then some rest else none
  | [] => none

/-- Gregorian leap-year rule, as in Python's `datetime`. -/
def isLeapYear (y : Nat) : Bool :=
  (y % 4 = 0 && decide (y % 100 ≠ 0)) || y % 400 = 0

/-- Number of days in a month, as validated by `datetime`. -/
def daysInMonth (y m : Nat) : Nat :=
  if m = 2 then (if isLeapYear y then 29 else 28)
  else if m = 4 ∨ m = 6 ∨ m = 9 ∨ m = 11 then 30
  else 31

/-- Parse the mandatory `YYYY-MM-DD` prefix, with `datetime`'s range
validation. -/
def parseDate (cs : List Char) : Option ((Nat × Nat × Nat) × List Char) :=
  match parse4 cs with
  | none => none
  | some (y, cs1) =>
    match expectChar '-' cs1 with
    | none => none
    | some cs2 =>
      match parse2 cs2 with
      | none => none
      | some (m, cs3) =>
        match expectChar '-' cs3 with
        | none => none
        | some cs4 =>
          match parse2 cs4 with
          | none => none
          | some (d, cs5) =>
            if 1 ≤ y ∧ 1 ≤ m ∧ m ≤ 12 ∧ 1 ≤ d ∧ d ≤ daysInMonth y m then
              some ((y, m, d), cs5)
            else none

/-- Parse an optional fractional-seconds suffix `.d{1..6}`, returning the
microsecond value (digits are right-padded to six places). -/
def parseFraction (cs : List Char) : Option (Nat × List Char) :=
  match cs with
  | '.' :: rest =>
    let ds := rest.takeWhile (fun c => c.isDigit)
    if 1 ≤ ds.length ∧ ds.length ≤ 6 then
      some ((ds.foldl (fun a c => a * 10 + (c.toNat - 48)) 0) * 10 ^ (6 - ds.length),
        rest.drop ds.length)
    else none
  | _ => some (0, cs)

/-- Parse a time of day `HH:MM[:SS[.ffffff]]`, returning
(hour, minute, second, microsecond). -/
def parseTime (cs : List Char) : Option ((Nat × Nat × Nat × Nat) × List Char) :=
  match parse2 cs with
  | none => none
  | some (h, cs1) =>
    match expectChar ':' cs1 with
    | none => none
    | some cs2 =>
      match parse2 cs2 with
      | none => none
      | some (mi, cs3) =>
        match expectChar ':' cs3 with
        | none =>
          if h ≤ 23 ∧ mi ≤ 59 then some ((h, mi, 0, 0), cs3) else none
        | some cs4 =>
          match parse2 cs4 with
          | none => none
          | some (s, cs5) =>
            match parseFraction cs5 with
            | none => none
            | some (us, cs6) =>
              if h ≤ 23 ∧ mi ≤ 59 ∧ s ≤ 59 then some ((h, mi, s, us), cs6) else none

/-- Parse a UTC offset `HH:MM` following the given sign character; the whole
remainder must be consumed. -/
def parseOffset (sign : Char) (cs : List Char) : Option Int :=
  match parse2 cs with
  | none => none
  | some (h, cs1) =>
    match expectChar ':' cs1 with
    | none => none
    | some cs2 =>
      match parse2 cs2 with
      | none => none
      | some (mi, cs3) =>
        if cs3 = [] ∧ h ≤ 23 ∧ mi ≤ 59 then
          some (if sign = '-' then -(((h * 60 + mi : Nat) : Int)) else ((h * 60 + mi : Nat) : Int))
        else none

/-- A character that does not begin a UTC-offset part. -/
def notSign (c : Char) : Bool :=
  decide (c ≠ '+') && decide (c ≠ '-')

/-- Model of `datetime.fromisoformat` on the profile the code exercises:
`YYYY-MM-DD`, optionally followed by any single separator character, a time
`HH:MM[:SS[.ffffff]]` and an optional offset `+HH:MM` or `-HH:MM`.  A string
without an offset part yields a naive datetime (`tzOffsetMinutes = none`),
exactly as the Python function does. -/
def fromisoformatChars (cs : List Char) : Option PyDatetime :=
  match parseDate cs with
  | none => none
  | some ((y, m, d), rest) =>
    match rest with
    | [] => some ⟨y, m, d, 0, 0, 0, 0, none⟩
    | _sep :: timestr =>
      match parseTime (timestr.takeWhile notSign) with
      | none => none
      | some ((h, mi, s, us), tr) =>
        if tr = [] then
          match timestr.dropWhile notSign with
          | [] => some ⟨y, m, d, h, mi, s, us, none⟩
          | signc :: ocs =>
            match parseOffset signc ocs with
            | none => none
            | some off => some ⟨y, m, d, h, mi, s, us, some off⟩
        else none

/-- Model of `s.replace('Z', '+00:00')`: every occurrence of `Z` is replaced
by the six characters `+00:00`. -/
def replaceZChars : List Char → List Char
  | [] => []
  | 'Z' :: rest => '+' :: '0' :: '0' :: ':' :: '0' :: '0' :: replaceZChars rest
  | c :: rest => c :: replaceZChars rest

/-- The timestamp conversion performed by `to_issue`, `to_milestone`,
`to_project` and `to_repository`:
`datetime.fromisoformat(s.replace('Z', '+00:00'))`.  `none` models the
`ValueError` the Python call raises on a rejected string. -/
def normalizeTimestamp (s : String) : Option PyDatetime :=
  fromisoformatChars (replaceZChars s.data)

/-! ## Entity models, from `src/integrations/github/models.py`

The pydantic models constrain `state` with `Field(pattern = regex matching
exactly open or closed)` and the milestone counters with `Field(ge = 0)`.
Construction is modelled by an explicit `mk` function returning the first
validation failure, so an entity value exists exactly when pydantic
construction succeeds. -/

/-- A pydantic validation failure: a string field rejected by its pattern,
or an integer field below its `ge` bound. -/
inductive ValidationError where
  | patternMismatch (field value : String)
  | geViolated (field : String) (value : Int)
deriving DecidableEq

/-- The regex constraint on `state` fields matches exactly the two literal
values `open` and `closed`. -/
def statePatternOk (s : String) : Bool :=
  s = "open" || s = "closed"

structure GitHubRepository where
  id : Int
  name : String
  full_name : String
  description : Option String
  private_ : Bool
  html_url : String
  created_at : PyDatetime
  updated_at : PyDatetime
deriving DecidableEq

structure GitHubIssue where
  id : Int
  number : Int
  title : String
  body : Option String
  state : String
  labels : List String
  assignees : List String
  created_at : PyDatetime
  updated_at : PyDatetime
  closed_at : Option PyDatetime
deriving DecidableEq

structure GitHubProject where
  id : Int
  name : String
  body : Option String
  state : String
  number : Int
  created_at : PyDatetime
  updated_at : PyDatetime
  columns : List String
deriving DecidableEq

structure GitHubMilestone where
  id : Int
  number : Int
  title : String
  description : Option String
  state : String
  due_on : Option PyDatetime
  created_at : PyDatetime
  updated_at : PyDatetime
  open_issues : Int
  closed_issues : Int
deriving DecidableEq

/-- Constructing a `GitHubIssue`: the only constrained field is `state`. -/
def mkGitHubIssue (id number : Int) (title : String) (body : Option String)
    (state : String) (labels assignees : List String)
    (created_at updated_at : PyDatetime) (closed_at : Option PyDatetime) :
    Except ValidationError GitHubIssue :=
  if statePatternOk state then
    .ok ⟨id, number, title, body, state, labels, assignees, created_at, updated_at, closed_at⟩
  else .error (.patternMismatch "state" state)

/-- Constructing a `GitHubMilestone`: `state` is pattern-constrained and the
two issue counters carry `ge = 0` bounds. -/
def mkGitHubMilestone (id number : Int) (title : String)
    (description : Option String) (state : String) (due_on : Option PyDatetime)
    (created_at updated_at : PyDatetime) (open_issues closed_issues : Int) :
    Except ValidationError GitHubMilestone :=
  if ¬ statePatternOk state then .error (.patternMismatch "state" state)
  else if open_issues < 0 then .error (.geViolated "open_issues" open_issues)
  else if closed_issues < 0 then .error (.geViolated "closed_issues" closed_issues)
  else .ok ⟨id, number, title, description, state, due_on, created_at, updated_at,
    open_issues, closed_issues⟩

/-! ## Graph store and upsert statements

The collectors issue Cypher statements through `session.run`.  The model
represents a node by its label, the merge-key property the statement merges
on (every node statement in this repository merges on a single key property:
`id: $id` for GitHub entities, `key: $key` for Jira entities), and the map
of properties written by `SET` clauses.  `MERGE` on a node pattern matches
label plus key and otherwise appends; `SET` overwrites the listed
properties; `MERGE` on a relationship pattern appends the edge unless it is
already present; a plain `MATCH` that finds no row makes the whole statement
a no-op, because every later clause runs once per matched row. -/

inductive PVal where
  | s (v : String)
  | i (v : Int)
  | b (v : Bool)
  | strList (v : List String)
  | dt (v : PyDatetime)
  | null
deriving DecidableEq

/-- A property map, written in statement order. -/
abbrev Props : Type := List (String × PVal)

/-- `SET n.k = v`: any previous binding of `k` is replaced. -/
def setProp (p : Props) (k : String) (v : PVal) : Props :=
  List.filter (fun kv => decide (kv.1 ≠ k)) p ++ [(k, v)]

/-- A whole `SET` clause: the bindings are applied left to right. -/
def setProps (p : Props) (s : Props) : Props :=
  List.foldl (fun acc kv => setProp acc kv.1 kv.2) p s

structure GNode where
  label : String
  key : String × PVal
  props : Props
deriving DecidableEq

structure NodeRef where
  label : String
  key : String × PVal
deriving DecidableEq

structure GEdge where
  typ : String
  src : NodeRef
  dst : NodeRef
deriving DecidableEq

structure Graph where
  nodes : List GNode
  edges : List GEdge
deriving DecidableEq

/-- The empty graph store. -/
def emptyGraphStore : Graph := ⟨[], []⟩

/-- Whether a node is the one merged on `(label, key)`. -/
def nodeIs (n : GNode) (L : String) (key : String × PVal) : Bool :=
  decide (n.label = L) && decide (n.key = key)

/-- Reading a property of a node: the merge-key property is part of the
node's identity, every other property lives in the written map. -/
def GNode.lookupProp (n : GNode) (k : String) : Option PVal :=
  if n.key.1 = k then some n.key.2 else n.props.lookup k

/-- `MERGE (n:L \x7bkey: $v\x7d) SET ...`: update every node matching label
and key, or append a fresh node carrying exactly the written properties. -/
def mergeNode (g : Graph) (L : String) (key : String × PVal) (sp : Props) : Graph :=
  if g.nodes.any (fun n => nodeIs n L key) then
    { g with nodes := g.nodes.map (fun n =>
        if nodeIs n L key then { n with props := setProps n.props sp } else n) }
  else
    { g with nodes := g.nodes ++ [{ label := L, key := key, props := setProps [] sp }] }

/-- `MERGE (a)-[:T]->(b)`: append the edge unless it already exists. -/
def mergeEdge (g : Graph) (e : GEdge) : Graph :=
  if e ∈ g.edges then g else { g with edges := g.edges ++ [e] }

/-- `MATCH (n:L \x7bk: $v\x7d)`: all nodes with the label whose property `k`
reads as `v`. -/
def matchNodesByProp (g : Graph) (L : String) (k : String) (v : PVal) : List GNode :=
  g.nodes.filter (fun n => decide (n.label = L) && decide (n.lookupProp k = some v))

/-- The identity of a node: its label and merge key. -/
def nodeRefOf (n : GNode) : NodeRef :=
  ⟨n.label, n.key⟩

/-- The matched rows, reduced to the node identities the statement uses. -/
def matchRefs (g : Graph) (L : String) (k : String) (v : PVal) : List NodeRef :=
  (matchNodesByProp g L k v).map nodeRefOf

/-- The three statement shapes issued by the collectors:
`mergeN` is `MERGE (n) SET ...` (repository, epic, story nodes);
`matchMerge` is `MATCH (parent) MERGE (child) SET ... MERGE (child)-[:rel]->(parent)`
(issues, projects, milestones); `matchEdge` is
`MATCH (s), (d) MERGE (s)-[:rel]->(d)` (story-to-epic links). -/
inductive Stmt where
  | mergeN (label : String) (key : String × PVal) (setP : Props)
  | matchMerge (mLabel mProp : String) (mVal : PVal) (cLabel : String)
      (cKey : String × PVal) (setP : Props) (rel : String)
  | matchEdge (sLabel sProp : String) (sVal : PVal) (dLabel dProp : String)
      (dVal : PVal) (rel : String)
deriving DecidableEq

/-- Executing one statement.  For `matchMerge` the match rows are computed
first; each row then runs the child merge, the property writes and the edge
merge, so zero rows means nothing at all happens. -/
def applyStmt (g : Graph) : Stmt → Graph
  | .mergeN L key sp => mergeNode g L key sp
  | .matchMerge mL mP mV cL cK sp rel =>
    (matchRefs g mL mP mV).foldl (fun acc r =>
      mergeEdge (mergeNode acc cL cK sp) ⟨rel, ⟨cL, cK⟩, r⟩) g
  | .matchEdge sL sP sV dL dP dV rel =>
    (matchRefs g sL sP sV).foldl (fun acc s =>
      (matchRefs g dL dP dV).foldl (fun acc2 d => mergeEdge acc2 ⟨rel, s, d⟩) acc) g

/-- Executing a list of statements in order. -/
def applyStmts (l : List Stmt) (g : Graph) : Graph :=
  l.foldl applyStmt g

/-- Optional strings are stored as `null` when absent. -/
def optStrP : Option String → PVal
  | some s => .s s
  | none => .null

/-- Optional datetimes are stored as `null` when absent (the
`CASE WHEN $x IS NOT NULL THEN datetime($x) ELSE null END` pattern). -/
def optDtP : Option PyDatetime → PVal
  | some d => .dt d
  | none => .null

/-- The `SET` clause of the repository upsert (collector.py lines 67-85).
`isoformat` followed by the Cypher `datetime()` conversion is modelled as
storing the datetime value itself. -/
def repoProps (r : GitHubRepository) : Props :=
  [("name", .s r.name), ("full_name", .s r.full_name),
   ("description", optStrP r.description), ("private", .b r.private_),
   ("html_url", .s r.html_url), ("created_at", .dt r.created_at),
   ("updated_at", .dt r.updated_at)]

/-- The `SET` clause of the issue upsert (collector.py lines 109-134). -/
def issueProps (i : GitHubIssue) : Props :=
  [("number", .i i.number), ("title", .s i.title), ("body", optStrP i.body),
   ("state", .s i.state), ("labels", .strList i.labels),
   ("assignees", .strList i.assignees), ("created_at", .dt i.created_at),
   ("updated_at", .dt i.updated_at), ("closed_at", optDtP i.closed_at)]

/-- The `SET` clause of the project upsert (collector.py lines 158-179). -/
def projectProps (p : GitHubProject) : Props :=
  [("name", .s p.name), ("body", optStrP p.body), ("state", .s p.state),
   ("number", .i p.number), ("created_at", .dt p.created_at),
   ("updated_at", .dt p.updated_at), ("columns", .strList p.columns)]

/-- The `SET` clause of the milestone upsert (collector.py lines 203-228). -/
def milestoneProps (m : GitHubMilestone) : Props :=
  [("number", .i m.number), ("title", .s m.title),
   ("description", optStrP m.description), ("state", .s m.state),
   ("due_on", optDtP m.due_on), ("created_at", .dt m.created_at),
   ("updated_at", .dt m.updated_at), ("open_issues", .i m.open_issues),
   ("closed_issues", .i m.closed_issues)]

/-- The repository statement: `MERGE (r:GitHubRepository \x7bid: $id\x7d) SET ...`. -/
def repoStmt (r : GitHubRepository) : Stmt :=
  .mergeN GITHUB_LABEL_REPOSITORY ("id", .i r.id) (repoProps r)

/-- The issue statement: `MATCH (r:GitHubRepository \x7bfull_name: $repo_name\x7d)
MERGE (i:GitHubIssue \x7bid: $id\x7d) SET ... MERGE (i)-[:BELONGS_TO]->(r)`. -/
def issueStmt (scope : String) (i : GitHubIssue) : Stmt :=
  .matchMerge GITHUB_LABEL_REPOSITORY "full_name" (.s scope)
    GITHUB_LABEL_ISSUE ("id", .i i.id) (issueProps i) REL_BELONGS_TO

/-- The project statement, ending in `MERGE (p)-[:HOSTED_IN]->(r)`. -/
def projectStmt (scope : String) (p : GitHubProject) : Stmt :=
  .matchMerge GITHUB_LABEL_REPOSITORY "full_name" (.s scope)
    GITHUB_LABEL_PROJECT ("id", .i p.id) (projectProps p) REL_HOSTED_IN

/-- The milestone statement, ending in `MERGE (m)-[:BELONGS_TO]->(r)`. -/
def milestoneStmt (scope : String) (m : GitHubMilestone) : Stmt :=
  .matchMerge GITHUB_LABEL_REPOSITORY "full_name" (.s scope)
    GITHUB_LABEL_MILESTONE ("id", .i m.id) (milestoneProps m) REL_BELONGS_TO

/-- Store side of `GitHubCollector.collect_repository`. -/
def collect_repository_store (r : GitHubRepository) (g : Graph) : Graph :=
  applyStmt g (repoStmt r)

/-- Store side of `GitHubCollector.collect_issues`: one statement per fetched
issue, gated on the collection flag. -/
def collect_issues_store (scope : String) (issues : List GitHubIssue) (g : Graph) : Graph :=
  if GITHUB_COLLECT_ISSUES then applyStmts (issues.map (issueStmt scope)) g else g

/-- Store side of `GitHubCollector.collect_projects`. -/
def collect_projects_store (scope : String) (projects : List GitHubProject) (g : Graph) : Graph :=
  if GITHUB_COLLECT_PROJECTS then applyStmts (projects.map (projectStmt scope)) g else g

/-- Store side of `GitHubCollector.collect_milestones`. -/
def collect_milestones_store (scope : String) (milestones : List GitHubMilestone) (g : Graph) : Graph :=
  if GITHUB_COLLECT_MILESTONES then applyStmts (milestones.map (milestoneStmt scope)) g else g

/-- Store side of `GitHubCollector.collect_repository_data`: repository
first, then issues, projects, milestones, given the entity streams fetched
for the scope. -/
def collect_repository_data_store (scope : String) (r : GitHubRepository)
    (issues : List GitHubIssue) (projects : List GitHubProject)
    (milestones : List GitHubMilestone) (g : Graph) : Graph :=
  collect_milestones_store scope milestones
    (collect_projects_store scope projects
      (collect_issues_store scope issues
        (collect_repository_store r g)))

/-! ## Jira collector, from `src/integrations/jira/collector.py` -/

structure JiraIssue where
  key : String
  summary : String
  description : Option String
  issue_type : String
  status : String
  assignee : Option String
  reporter : String
  created : String
  updated : String
  labels : List String
  priority : Option String
  parent_key : Option String
deriving DecidableEq

/-- The `SET` clause of the epic upsert (jira/collector.py lines 70-81). -/
def epicProps (e : JiraIssue) : Props :=
  [("summary", .s e.summary), ("description", optStrP e.description),
   ("status", .s e.status), ("assignee", optStrP e.assignee),
   ("reporter", .s e.reporter), ("created", .s e.created),
   ("updated", .s e.updated), ("labels", .strList e.labels),
   ("priority", optStrP e.priority)]

/-- The `SET` clause of the story upsert (jira/collector.py lines 86-97):
the same fields as the epic upsert. -/
def storyProps (s : JiraIssue) : Props :=
  [("summary", .s s.summary), ("description", optStrP s.description),
   ("status", .s s.status), ("assignee", optStrP s.assignee),
   ("reporter", .s s.reporter), ("created", .s s.created),
   ("updated", .s s.updated), ("labels", .strList s.labels),
   ("priority", optStrP s.priority)]

/-- `MERGE (e:Epic \x7bkey: $key\x7d) SET ...`. -/
def epicStmt (e : JiraIssue) : Stmt :=
  .mergeN "Epic" ("key", .s e.key) (epicProps e)

/-- `MERGE (s:Story \x7bkey: $key\x7d) SET ...`. -/
def storyNodeStmt (s : JiraIssue) : Stmt :=
  .mergeN "Story" ("key", .s s.key) (storyProps s)

/-- `MATCH (s:Story \x7bkey: $story_key\x7d), (e:Epic \x7bkey: $epic_key\x7d)
MERGE (s)-[:BELONGS_TO]->(e)`. -/
def storyEdgeStmt (storyKey epicKey : String) : Stmt :=
  .matchEdge "Story" "key" (.s storyKey) "Epic" "key" (.s epicKey) REL_BELONGS_TO

/-- The statements run for one story: the node upsert, then the edge
statement only when `parent_key` is set. -/
def storyStmts (s : JiraIssue) : List Stmt :=
  match s.parent_key with
  | some pk => [storyNodeStmt s, storyEdgeStmt s.key pk]
  | none => [storyNodeStmt s]

/-- `JiraCollector._store_epics_and_stories`: all epic upserts, then for
each story its upsert followed by its optional edge statement. -/
def store_epics_and_stories (epics stories : List JiraIssue) (g : Graph) : Graph :=
  applyStmts (epics.map epicStmt ++ stories.flatMap storyStmts) g

/-! ## Collection orchestrator, from `collect_repository_data` and
`collect_github_data` (collector.py lines 233-283)

`collect_repository_data` runs the four collection steps in sequence with no
per-step exception handling, so the first exception aborts the remaining
steps and propagates.  `collect_github_data` catches that exception per
repository, logs it, and moves on to the next repository; it returns
nothing. -/

inductive Kind where
  | root
  | issues
  | projects
  | milestones
deriving DecidableEq

/-- One scope of `collect_repository_data`, given the outcome each of the
four steps would have: returns which steps were attempted, in order, and the
overall outcome (the first exception, if any, propagating to the caller). -/
def collect_repository_data_run (root : Except PyExc Unit)
    (iss prj mil : Except PyExc Nat) : List Kind × Except PyExc Unit :=
  match root with
  | .error e => ([.root], .error e)
  | .ok _ =>
    match iss with
    | .error e => ([.root, .issues], .error e)
    | .ok _ =>
      match prj with
      | .error e => ([.root, .issues, .projects], .error e)
      | .ok _ =>
        match mil with
        | .error e => ([.root, .issues, .projects, .milestones], .error e)
        | .ok _ => ([.root, .issues, .projects, .milestones], .ok ())

/-- The exception caught and logged by `collect_github_data`, if any. -/
def caughtError : Except PyExc Unit → Option PyExc
  | .ok _ => none
  | .error e => some e

/-- `collect_github_data`: every repository in the list is processed; a
scope failure is caught and logged (recorded here as the caught exception)
and the remaining scopes still run.  The function itself returns `None`, so
the per-scope entries model only what reaches the log. -/
def collect_github_data_run (outcome : String → List Kind × Except PyExc Unit)
    (repos : List String) : List (String × List Kind × Option PyExc) :=
  repos.map (fun r => (r, (outcome r).1, caughtError (outcome r).2))

/-! ## Schema managers -/

/-- The constraint statements of `create_github_schema`
(src/graph/github_schema.py lines 25-30), with the labels interpolated the
way the f-strings do. -/
def githubSchemaConstraints : List String :=
  ["CREATE CONSTRAINT " ++ GITHUB_LABEL_REPOSITORY ++ "_id IF NOT EXISTS FOR (r:" ++
     GITHUB_LABEL_REPOSITORY ++ ") REQUIRE r.id IS UNIQUE",
   "CREATE CONSTRAINT " ++ GITHUB_LABEL_ISSUE ++ "_id IF NOT EXISTS FOR (i:" ++
     GITHUB_LABEL_ISSUE ++ ") REQUIRE i.id IS UNIQUE",
   "CREATE CONSTRAINT " ++ GITHUB_LABEL_PROJECT ++ "_id IF NOT EXISTS FOR (p:" ++
     GITHUB_LABEL_PROJECT ++ ") REQUIRE p.id IS UNIQUE",
   "CREATE CONSTRAINT " ++ GITHUB_LABEL_MILESTONE ++ "_id IF NOT EXISTS FOR (m:" ++
     GITHUB_LABEL_MILESTONE ++ ") REQUIRE m.id IS UNIQUE"]

/-- The index statements of `create_github_schema` (lines 33-40). -/
def githubSchemaIndexes : List String :=
  ["CREATE INDEX " ++ GITHUB_LABEL_REPOSITORY ++ "_full_name IF NOT EXISTS FOR (r:" ++
     GITHUB_LABEL_REPOSITORY ++ ") ON (r.full_name)",
   "CREATE INDEX " ++ GITHUB_LABEL_ISSUE ++ "_number IF NOT EXISTS FOR (i:" ++
     GITHUB_LABEL_ISSUE ++ ") ON (i.number)",
   "CREATE INDEX " ++ GITHUB_LABEL_ISSUE ++ "_state IF NOT EXISTS FOR (i:" ++
     GITHUB_LABEL_ISSUE ++ ") ON (i.state)",
   "CREATE INDEX " ++ GITHUB_LABEL_PROJECT ++ "_number IF NOT EXISTS FOR (p:" ++
     GITHUB_LABEL_PROJECT ++ ") ON (p.number)",
   "CREATE INDEX " ++ GITHUB_LABEL_MILESTONE ++ "_number IF NOT EXISTS FOR (m:" ++
     GITHUB_LABEL_MILESTONE ++ ") ON (m.number)",
   "CREATE INDEX " ++ GITHUB_LABEL_MILESTONE ++ "_state IF NOT EXISTS FOR (m:" ++
     GITHUB_LABEL_MILESTONE ++ ") ON (m.state)"]

/-- A loop whose body is wrapped in `try/except` with a printed warning:
every statement is attempted whether or not earlier ones fail.  Returns the
statements attempted, in order, and the warnings printed. -/
def runIndependent (fails : String → Bool) (warning : String)
    (stmts : List String) : List String × List String :=
  stmts.foldl (fun acc s =>
    (acc.1 ++ [s], if fails s then acc.2 ++ [warning] else acc.2)) ([], [])

/-- `create_github_schema`: constraints then indexes, each loop independent
per statement. -/
def create_github_schema (fails : String → Bool) : List String × List String :=
  let c := runIndependent fails "Warning: Could not create constraint" githubSchemaConstraints
  let i := runIndependent fails "Warning: Could not create index" githubSchemaIndexes
  (c.1 ++ i.1, c.2 ++ i.2)

/-- The constraint statements of `create_schema`
(src/neo4j_integration/schema.py lines 12-17). -/
def c4SchemaConstraints : List String :=
  ["CREATE CONSTRAINT context_name_unique IF NOT EXISTS FOR (c:Context) REQUIRE c.name IS UNIQUE",
   "CREATE CONSTRAINT container_name_unique IF NOT EXISTS FOR (c:Container) REQUIRE c.name IS UNIQUE",
   "CREATE CONSTRAINT component_name_unique IF NOT EXISTS FOR (c:Component) REQUIRE c.name IS UNIQUE",
   "CREATE CONSTRAINT code_name_unique IF NOT EXISTS FOR (c:Code) REQUIRE c.name IS UNIQUE"]

/-- The index statements of `create_schema` (lines 23-28). -/
def c4SchemaIndexes : List String :=
  ["CREATE INDEX context_description IF NOT EXISTS FOR (c:Context) ON (c.description)",
   "CREATE INDEX container_description IF NOT EXISTS FOR (c:Container) ON (c.description)",
   "CREATE INDEX component_description IF NOT EXISTS FOR (c:Component) ON (c.description)",
   "CREATE INDEX code_description IF NOT EXISTS FOR (c:Code) ON (c.description)"]

/-- A loop with no exception handling: the first failing statement raises,
aborting the remaining statements.  Returns the statements attempted, in
order, and the outcome. -/
def runSeq (fails : String → Bool) : List String → List String × Except String Unit
  | [] => ([], .ok ())
  | s :: rest =>
    if fails s then ([s], .error s)
    else
      let r := runSeq fails rest
      (s :: r.1, r.2)

/-- `create_schema`: constraints then indexes through bare `run_query`
calls. -/
def create_schema (fails : String → Bool) : List String × Except String Unit :=
  runSeq fails (c4SchemaConstraints ++ c4SchemaIndexes)

/-! ## Verification predicates for the upsert engine

These predicates describe the saturated state a collection pass leaves the
graph in; the idempotence proof shows a pass establishes them and a second
pass over a saturated graph is the identity. -/

/-- Keys written by a `SET` clause. -/
def propKeys (sp : Props) : List String :=
  sp.map Prod.fst

/-- The drop of all bindings whose key a later `SET` clause overwrites. -/
def eraseKeys (sp : Props) (p : Props) : Props :=
  p.filter (fun kv => decide (kv.1 ∉ propKeys sp))

/-- The node merged on `(L, key)` exists and its written properties are
exactly what the `SET` clause `sp` produces (so re-applying `sp` changes
nothing). -/
def NodeSat (g : Graph) (L : String) (key : String × PVal) (sp : Props) : Prop :=
  (∃ n ∈ g.nodes, nodeIs n L key = true) ∧
  ∀ n ∈ g.nodes, nodeIs n L key = true → setProps n.props sp = n.props

/-- A statement's effect is already present in the graph: its node merge is
saturated and every edge its match rows would produce already exists. -/
def StmtSat (g : Graph) : Stmt → Prop
  | .mergeN L key sp => NodeSat g L key sp
  | .matchMerge mL mP mV cL cK sp rel =>
    (matchRefs g mL mP mV ≠ [] → NodeSat g cL cK sp) ∧
    ∀ r ∈ matchRefs g mL mP mV, GEdge.mk rel ⟨cL, cK⟩ r ∈ g.edges
  | .matchEdge sL sP sV dL dP dV rel =>
    ∀ s ∈ matchRefs g sL sP sV, ∀ t ∈ matchRefs g dL dP dV,
      GEdge.mk rel s t ∈ g.edges

/-- The node writes a statement performs: label, merge key and `SET`
clause. -/
def stmtWrites : Stmt → List (String × (String × PVal) × Props)
  | .mergeN L key sp => [(L, key, sp)]
  | .matchMerge _ _ _ cL cK sp _ => [(cL, cK, sp)]
  | .matchEdge _ _ _ _ _ _ _ => []

/-- The match patterns a statement evaluates: label, property and value. -/
def stmtPatterns : Stmt → List (String × String × PVal)
  | .mergeN _ _ _ => []
  | .matchMerge mL mP mV _ _ _ _ => [(mL, mP, mV)]
  | .matchEdge sL sP sV dL dP dV _ => [(sL, sP, sV), (dL, dP, dV)]

/-- A node write cannot change which rows a match pattern returns: either
the labels differ, or the written key property is the matched property with
a different value, or the matched property is neither the key nor among the
written keys. -/
def WriterOk (w : String × (String × PVal) × Props) (pat : String × String × PVal) : Prop :=
  w.1 ≠ pat.1 ∨ (w.2.1.1 = pat.2.1 ∧ w.2.1.2 ≠ pat.2.2) ∨
    (w.2.1.1 ≠ pat.2.1 ∧ pat.2.1 ∉ propKeys w.2.2)

/-- A later statement `b` neither merges on any node identity an earlier
statement `a` merges on, nor disturbs any match pattern of `a`. -/
def WriteDisj (a b : Stmt) : Prop :=
  ∀ w ∈ stmtWrites b,
    (∀ w2 ∈ stmtWrites a, (w.1, w.2.1) ≠ (w2.1, w2.2.1)) ∧
    ∀ pat ∈ stmtPatterns a, WriterOk w pat

/-- A statement does not disturb its own match patterns. -/
def SelfOk (st : Stmt) : Prop :=
  ∀ w ∈ stmtWrites st, ∀ pat ∈ stmtPatterns st, WriterOk w pat

/-- The statement list of one GitHub collection pass: the repository merge,
then the per-entity statements of issues, projects and milestones. -/
def githubStmts (scope : String) (r : GitHubRepository) (issues : List GitHubIssue)
    (projects : List GitHubProject) (milestones : List GitHubMilestone) : List Stmt :=
  repoStmt r :: (issues.map (issueStmt scope) ++ projects.map (projectStmt scope) ++
    milestones.map (milestoneStmt scope))

/-- The statement list of one Jira collection pass. -/
def jiraStmts (epics stories : List JiraIssue) : List Stmt :=
  epics.map epicStmt ++ stories.flatMap storyStmts

/-! ## Lemmas about the retry loop -/

theorem retryGo_zero {α : Type} (N d : Nat) (op : Nat → AttemptOutcome α) (a : Nat)
    (rc : RateCache) :
    retryGo N d op 0 a rc =
      (.runtimeError ("Failed after " ++ toString N ++ " attempts"), rc, []) := rfl

theorem gateFires_fresh : gateFires freshRateCache = false := rfl

theorem retryGo_ok {α : Type} {N d rem a : Nat} {op : Nat → AttemptOutcome α} {rc : RateCache}
    {v : α} {info : Option (Int × Int)}
    (hop : op a = .ok v info) (hg : gateFires rc = false) :
    retryGo N d op (rem + 1) a rc = (.success v, updateCache rc info, []) := by
  conv_lhs => rw [retryGo.eq_def]
  simp [hop, hg]

theorem retryGo_backoff {α : Type} {N d rem a : Nat} {op : Nat → AttemptOutcome α}
    {rc : RateCache} {st : Nat} {rl : Bool}
    (hop : op a = .exc (.githubEx st rl))
    (hretry : (st = 403 ∧ rl = true) ∨ 500 ≤ st)
    (hg : gateFires rc = false) :
    retryGo N d op (rem + 1) a rc =
      ((retryGo N d op rem (a + 1) rc).1, (retryGo N d op rem (a + 1) rc).2.1,
        .backoff (d * 2 ^ a) :: (retryGo N d op rem (a + 1) rc).2.2) := by
  conv_lhs => rw [retryGo.eq_def]
  rcases hretry with h | h
  · simp [hop, hg, h]
  · have h403 : ¬ (st = 403 ∧ rl = true) := by
      rintro ⟨h1, _⟩
      omega
    simp [hop, hg, h403, h]

theorem retryGo_backoff_gate {α : Type} {N d rem a : Nat} {op : Nat → AttemptOutcome α}
    {rc : RateCache} {st : Nat} {rl : Bool}
    (hop : op a = .exc (.githubEx st rl))
    (hretry : (st = 403 ∧ rl = true) ∨ 500 ≤ st)
    (hg : gateFires rc = true) :
    retryGo N d op (rem + 1) a rc =
      ((retryGo N d op rem (a + 1) rc).1, (retryGo N d op rem (a + 1) rc).2.1,
        .rateGate :: .backoff (d * 2 ^ a) :: (retryGo N d op rem (a + 1) rc).2.2) := by
  conv_lhs => rw [retryGo.eq_def]
  rcases hretry with h | h
  · simp [hop, hg, h]
  · have h403 : ¬ (st = 403 ∧ rl = true) := by
      rintro ⟨h1, _⟩
      omega
    simp [hop, hg, h403, h]

theorem retryGo_clientError {α : Type} {N d rem a : Nat} {op : Nat → AttemptOutcome α}
    {rc : RateCache} {st : Nat} {rl : Bool}
    (hop : op a = .exc (.githubEx st rl))
    (h1 : ¬ (st = 403 ∧ rl = true)) (h2 : ¬ 500 ≤ st)
    (hg : gateFires rc = false) :
    retryGo N d op (rem + 1) a rc = (.raised (.githubEx st rl), rc, []) := by
  conv_lhs => rw [retryGo.eq_def]
  simp [hop, hg, h1, h2]

theorem retryGo_retryable_proj {α : Type} {N d rem a : Nat} {op : Nat → AttemptOutcome α}
    {rc : RateCache} {st : Nat} {rl : Bool}
    (hop : op a = .exc (.githubEx st rl))
    (hretry : (st = 403 ∧ rl = true) ∨ 500 ≤ st) :
    (retryGo N d op (rem + 1) a rc).1 = (retryGo N d op rem (a + 1) rc).1 ∧
    (retryGo N d op (rem + 1) a rc).2.1 = (retryGo N d op rem (a + 1) rc).2.1 := by
  rcases hg : gateFires rc with _ | _
  · rw [retryGo_backoff hop hretry hg]
    exact ⟨rfl, rfl⟩
  · rw [retryGo_backoff_gate hop hretry hg]
    exact ⟨rfl, rfl⟩

theorem retryGo_exhaust {α : Type} (N d : Nat) (op : Nat → AttemptOutcome α) :
    ∀ (rem a : Nat) (rc : RateCache),
      (∀ i, a ≤ i → i < a + rem →
        ∃ st rl, op i = .exc (.githubEx st rl) ∧ ((st = 403 ∧ rl = true) ∨ 500 ≤ st)) →
      (retryGo N d op rem a rc).1 =
        .runtimeError ("Failed after " ++ toString N ++ " attempts") ∧
      (retryGo N d op rem a rc).2.1 = rc := by
  intro rem
  induction rem with
  | zero => exact fun a rc _ => ⟨rfl, rfl⟩
  | succ n ih =>
    intro a rc h
    obtain ⟨st, rl, hop, hr⟩ := h a (le_refl a) (by omega)
    have step := @retryGo_retryable_proj α N d n a op rc st rl hop hr
    have tail := ih (a + 1) rc (fun i hi1 hi2 => h i (by omega) (by omega))
    exact ⟨step.1.trans tail.1, step.2.trans tail.2⟩

/-! ## Lemmas about the timestamp parser -/

theorem parseDigit_append {cs ext r : List Char} {v : Nat}
    (h : parseDigit cs = some (v, r)) : parseDigit (cs ++ ext) = some (v, r ++ ext) := by
  cases cs with
  | nil => exact absurd h (by simp [parseDigit])
  | cons c rest =>
    simp only [parseDigit, List.cons_append] at h ⊢
    split at h
    · rename_i d heq
      simp only [Option.some.injEq, Prod.mk.injEq] at h
      simp [h.1, h.2]
    · simp at h

theorem parse2_append {cs ext r : List Char} {v : Nat}
    (h : parse2 cs = some (v, r)) : parse2 (cs ++ ext) = some (v, r ++ ext) := by
  unfold parse2 at h ⊢
  split at h
  · simp at h
  · rename_i d1 cs1 h1
    rw [parseDigit_append h1]
    split at h
    · simp at h
    · rename_i d2 cs2 h2
      rw [parseDigit_append h2]
      simp only [Option.some.injEq, Prod.mk.injEq] at h
      simp [h.1, h.2]

theorem parse4_append {cs ext r : List Char} {v : Nat}
    (h : parse4 cs = some (v, r)) : parse4 (cs ++ ext) = some (v, r ++ ext) := by
  unfold parse4 at h ⊢
  split at h
  · simp at h
  · rename_i v1 cs1 h1
    rw [parse2_append h1]
    split at h
    · simp at h
    · rename_i v2 cs2 h2
      rw [parse2_append h2]
      simp only [Option.some.injEq, Prod.mk.injEq] at h
      simp [h.1, h.2]

theorem expectChar_append {c : Char} {cs ext r : List Char}
    (h : expectChar c cs = some r) : expectChar c (cs ++ ext) = some (r ++ ext) := by
  cases cs with
  | nil => exact absurd h (by simp [expectChar])
  | cons x rest =>
    simp only [expectChar, List.cons_append] at h ⊢
    by_cases hx : x = c
    · simp only [if_pos hx, Option.some.injEq] at h
      simp [if_pos hx, h]
    · simp [if_neg hx] at h

theorem parseDate_append {cs ext r : List Char} {v : Nat × Nat × Nat}
    (h : parseDate cs = some (v, r)) : parseDate (cs ++ ext) = some (v, r ++ ext) := by
  unfold parseDate at h ⊢
  split at h
  · simp at h
  · rename_i y cs1 h1
    rw [parse4_append h1]
    dsimp only
    split at h
    · simp at h
    · rename_i cs2 h2
      rw [expectChar_append h2]
      dsimp only
      split at h
      · simp at h
      · rename_i m cs3 h3
        rw [parse2_append h3]
        dsimp only
        split at h
        · simp at h
        · rename_i cs4 h4
          rw [expectChar_append h4]
          dsimp only
          split at h
          · simp at h
          · rename_i d cs5 h5
            rw [parse2_append h5]
            dsimp only
            split at h
            · rename_i hvalid
              rw [if_pos hvalid]
              simp only [Option.some.injEq, Prod.mk.injEq] at h
              simp [h.1, h.2]
            · simp at h

theorem takeWhile_append_all {p : Char → Bool} {l1 : List Char} (l2 : List Char)
    (h : ∀ c ∈ l1, p c = true) :
    (l1 ++ l2).takeWhile p = l1 ++ l2.takeWhile p := by
  induction l1 with
  | nil => simp
  | cons c t ih =>
    have hc : p c = true := h c (by simp)
    simp only [List.cons_append, List.takeWhile_cons, hc, if_true]
    rw [ih (fun x hx => h x (by simp [hx]))]

theorem dropWhile_append_all {p : Char → Bool} {l1 : List Char} (l2 : List Char)
    (h : ∀ c ∈ l1, p c = true) :
    (l1 ++ l2).dropWhile p = l2.dropWhile p := by
  induction l1 with
  | nil => simp
  | cons c t ih =>
    have hc : p c = true := h c (by simp)
    simp only [List.cons_append, List.dropWhile_cons, hc, if_true]
    exact ih (fun x hx => h x (by simp [hx]))

theorem replaceZChars_cons_ne {c : Char} (hc : c ≠ 'Z') (t : List Char) :
    replaceZChars (c :: t) = c :: replaceZChars t := by
  conv_lhs => rw [replaceZChars.eq_def]
  split
  · rename_i heq
    simp at heq
  · rename_i rest heq
    exact absurd (List.cons.inj heq).1 hc
  · rename_i c2 rest heq
    obtain ⟨h1, h2⟩ := List.cons.inj heq
    rw [← h1, ← h2]

theorem replaceZChars_append : ∀ l1 l2 : List Char,
    replaceZChars (l1 ++ l2) = replaceZChars l1 ++ replaceZChars l2 := by
  intro l1 l2
  induction l1 with
  | nil => simp [replaceZChars]
  | cons c t ih =>
    by_cases hc : c = 'Z'
    · subst hc
      simp only [List.cons_append]
      rw [show replaceZChars ('Z' :: (t ++ l2)) =
            '+' :: '0' :: '0' :: ':' :: '0' :: '0' :: replaceZChars (t ++ l2) from rfl,
          show replaceZChars ('Z' :: t) =
            '+' :: '0' :: '0' :: ':' :: '0' :: '0' :: replaceZChars t from rfl, ih]
      simp
    · simp only [List.cons_append]
      rw [replaceZChars_cons_ne hc, replaceZChars_cons_ne hc, ih]
      simp

theorem replaceZChars_no_Z : ∀ {l : List Char}, 'Z' ∉ l → replaceZChars l = l := by
  intro l
  induction l with
  | nil => intro _; rfl
  | cons c t ih =>
    intro h
    have hc : c ≠ 'Z' := fun e => h (by simp [e])
    rw [replaceZChars_cons_ne hc, ih (fun e => h (by simp [e]))]

/-! ## Lemmas about the schema loops -/

theorem runIndependent_fst (fails : String → Bool) (warning : String) :
    ∀ (stmts : List String) (acc : List String × List String),
      (stmts.foldl (fun acc s =>
        (acc.1 ++ [s], if fails s then acc.2 ++ [warning] else acc.2)) acc).1 =
        acc.1 ++ stmts := by
  intro stmts
  induction stmts with
  | nil => intro acc; simp
  | cons s rest ih =>
    intro acc
    rw [List.foldl_cons, ih]
    simp

/-! ## Claim theorems (C2 through C10) -/

/-- Claim C2, counterexample: collecting one issue while its repository node
is absent leaves the graph completely unchanged — the issue node is not
persisted, contradicting the claim that the child node upsert still
executes. -/
theorem child_upsert_absent_parent_counterexample :
    collect_issues_store "acme/widgets"
        [⟨7, 7, "Crash on save", none, "open", [], [],
          ⟨2023, 1, 1, 0, 0, 0, 0, some 0⟩, ⟨2023, 1, 1, 0, 0, 0, 0, some 0⟩, none⟩]
        emptyGraphStore = emptyGraphStore ∧
    (collect_issues_store "acme/widgets"
        [⟨7, 7, "Crash on save", none, "open", [], [],
          ⟨2023, 1, 1, 0, 0, 0, 0, some 0⟩, ⟨2023, 1, 1, 0, 0, 0, 0, some 0⟩, none⟩]
        emptyGraphStore).nodes.length = 0 := by
  exact ⟨rfl, rfl⟩

/-- Claim C2, amended: when no repository node matches the scope, the whole
issue (or milestone) statement is a silent no-op — the `MATCH` yields zero
rows, so neither the child node nor the edge is created, and no error is
raised. -/
theorem child_upsert_absent_parent_noop :
    (∀ (g : Graph) (scope : String) (i : GitHubIssue),
        matchNodesByProp g GITHUB_LABEL_REPOSITORY "full_name" (.s scope) = [] →
        applyStmt g (issueStmt scope i) = g) ∧
    (∀ (g : Graph) (scope : String) (m : GitHubMilestone),
        matchNodesByProp g GITHUB_LABEL_REPOSITORY "full_name" (.s scope) = [] →
        applyStmt g (milestoneStmt scope m) = g) := by
  constructor <;> intro g scope x h <;>
    simp [issueStmt, milestoneStmt, applyStmt, matchRefs, h]

/-- Claim C2, witness for the amended theorem. -/
theorem child_upsert_absent_parent_noop_witness :
    applyStmt emptyGraphStore (issueStmt "acme/widgets"
      ⟨7, 7, "Crash on save", none, "open", [], [],
        ⟨2023, 1, 1, 0, 0, 0, 0, some 0⟩, ⟨2023, 1, 1, 0, 0, 0, 0, some 0⟩, none⟩) =
      emptyGraphStore :=
  child_upsert_absent_parent_noop.1 emptyGraphStore "acme/widgets"
    ⟨7, 7, "Crash on save", none, "open", [], [],
      ⟨2023, 1, 1, 0, 0, 0, 0, some 0⟩, ⟨2023, 1, 1, 0, 0, 0, 0, some 0⟩, none⟩ rfl

/-- Claim C3: each collector call passes the whole scope string as the
single positional argument, so Python binds it to the client's `owner`
parameter, leaves the required `repo` parameter unbound, and the call fails
to bind the declared `(owner, repo)` signature; the collection flags that
gate these calls are all enabled. -/
theorem collector_calls_cannot_bind_client_signature :
    ∀ scope : String,
      GITHUB_COLLECT_ISSUES = true ∧ GITHUB_COLLECT_PROJECTS = true ∧
      GITHUB_COLLECT_MILESTONES = true ∧
      posBind ["owner", "repo"] (collectIssuesCall scope).1 = [("owner", scope)] ∧
      bindOwnerRepoState (collectIssuesCall scope).1 (collectIssuesCall scope).2 =
        .error "TypeError: missing 1 required positional argument: repo" ∧
      bindOwnerRepo (collectProjectsCall scope) =
        .error "TypeError: missing 1 required positional argument: repo" ∧
      bindOwnerRepoState (collectMilestonesCall scope).1 (collectMilestonesCall scope).2 =
        .error "TypeError: missing 1 required positional argument: repo" :=
  fun _ => ⟨rfl, rfl, rfl, rfl, rfl, rfl, rfl⟩

/-- Claim C4, counterexample: an operation that fails with a retryable
server error on all three attempts makes the wrapper raise a bare
`RuntimeError` naming only the attempt count; the result is not the
underlying error and carries no underlying error. -/
theorem retry_exhaustion_counterexample :
    retry_on_exception GITHUB_MAX_RETRIES GITHUB_RETRY_DELAY
        (fun _ => (AttemptOutcome.exc (PyExc.githubEx 500 false) : AttemptOutcome Nat))
        freshRateCache =
      (.runtimeError "Failed after 3 attempts", freshRateCache,
        [.backoff 1, .backoff 2, .backoff 4]) ∧
    (RetryResult.runtimeError "Failed after 3 attempts" : RetryResult Nat) ≠
      .raised (.githubEx 500 false) := by
  exact ⟨by decide, by decide⟩

/-- Claim C4, amended: when every one of the `N` attempts fails with a
retryable `GithubException` (rate-limit 403 or status at least 500), the
wrapper fails with a generic `RuntimeError` whose message carries only the
attempt count — the last underlying error is not attached — and the cached
rate-limit state is unchanged. -/
theorem retry_exhaustion_runtime_error :
    ∀ (α : Type) (N delay : Nat) (op : Nat → AttemptOutcome α) (rc : RateCache),
      (∀ i, i < N →
        ∃ st rl, op i = .exc (.githubEx st rl) ∧ ((st = 403 ∧ rl = true) ∨ 500 ≤ st)) →
      (retry_on_exception N delay op rc).1 =
        .runtimeError ("Failed after " ++ toString N ++ " attempts") ∧
      (retry_on_exception N delay op rc).2.1 = rc :=
  fun α N delay op rc h =>
    retryGo_exhaust N delay op N 0 rc (fun i _ h2 => h i (by omega))

/-- Claim C4, witness for the amended theorem. -/
theorem retry_exhaustion_runtime_error_witness :
    (retry_on_exception 3 1
        (fun _ => (AttemptOutcome.exc (PyExc.githubEx 503 true) : AttemptOutcome Nat))
        freshRateCache).1 = .runtimeError "Failed after 3 attempts" := by
  have h := retry_exhaustion_runtime_error Nat 3 1
    (fun _ => AttemptOutcome.exc (PyExc.githubEx 503 true)) freshRateCache
    (fun i _ => ⟨503, true, rfl, Or.inr (by omega)⟩)
  exact h.1.trans (by decide)

/-- Claim C5: with the default retry count, an operation failing with an
HTTP 500-or-above server error on the first two attempts and succeeding on
the third returns the success result after exactly the two backoff sleeps
`delay * 2 ^ 0` and `delay * 2 ^ 1`; an operation failing with a
non-rate-limit 4xx client error is re-raised on the first attempt with zero
sleeps. -/
theorem retry_policy_backoff_and_client_error :
    (∀ (α : Type) (delay : Nat) (op : Nat → AttemptOutcome α) (v : α)
        (info : Option (Int × Int)) (st0 st1 : Nat) (rl0 rl1 : Bool),
        op 0 = .exc (.githubEx st0 rl0) → 500 ≤ st0 →
        op 1 = .exc (.githubEx st1 rl1) → 500 ≤ st1 →
        op 2 = .ok v info →
        retry_on_exception GITHUB_MAX_RETRIES delay op freshRateCache =
          (.success v, updateCache freshRateCache info,
            [.backoff (delay * 2 ^ 0), .backoff (delay * 2 ^ 1)])) ∧
    (∀ (α : Type) (delay : Nat) (op : Nat → AttemptOutcome α) (st : Nat) (rl : Bool),
        op 0 = .exc (.githubEx st rl) → 400 ≤ st → st < 500 → ¬ (st = 403 ∧ rl = true) →
        retry_on_exception GITHUB_MAX_RETRIES delay op freshRateCache =
          (.raised (.githubEx st rl), freshRateCache, [])) := by
  constructor
  · intro α delay op v info st0 st1 rl0 rl1 h0 h500a h1 h500b h2
    have e3 : GITHUB_MAX_RETRIES = 2 + 1 := rfl
    unfold retry_on_exception
    rw [e3, retryGo_backoff h0 (Or.inr h500a) gateFires_fresh]
    have e1 : (0 : Nat) + 1 = 1 := rfl
    have e2 : (2 : Nat) = 1 + 1 := rfl
    rw [e1, e2, retryGo_backoff h1 (Or.inr h500b) gateFires_fresh]
    have e4 : (1 : Nat) + 1 = 2 := rfl
    rw [e4, retryGo_ok h2 gateFires_fresh]
  · intro α delay op st rl h0 h400 h500 hrl
    have e3 : GITHUB_MAX_RETRIES = 2 + 1 := rfl
    unfold retry_on_exception
    rw [e3, retryGo_clientError h0 hrl (by omega) gateFires_fresh]

/-- Claim C5, witness. -/
theorem retry_policy_backoff_and_client_error_witness :
    retry_on_exception GITHUB_MAX_RETRIES 1
        (fun a => if a < 2 then AttemptOutcome.exc (PyExc.githubEx 502 false)
                  else AttemptOutcome.ok (42 : Nat) none) freshRateCache =
      (.success 42, freshRateCache, [.backoff 1, .backoff 2]) ∧
    retry_on_exception GITHUB_MAX_RETRIES 1
        (fun _ => (AttemptOutcome.exc (PyExc.githubEx 404 false) : AttemptOutcome Nat))
        freshRateCache =
      (.raised (.githubEx 404 false), freshRateCache, []) := by
  constructor
  · exact (retry_policy_backoff_and_client_error.1 Nat 1
      (fun a => if a < 2 then AttemptOutcome.exc (PyExc.githubEx 502 false)
                else AttemptOutcome.ok (42 : Nat) none)
      42 none 502 502 false false rfl (by omega) rfl (by omega) rfl).trans (by decide)
  · exact (retry_policy_backoff_and_client_error.2 Nat 1
      (fun _ => AttemptOutcome.exc (PyExc.githubEx 404 false))
      404 false rfl (by omega) (by omega) (by simp)).trans (by decide)

/-- Claim C6, counterexample: with the root step succeeding and the issues
step failing, `collect_repository_data` attempts only the root and issues
steps — projects and milestones are never attempted — and the scope fails as
a whole with the propagated exception, contradicting per-kind recording. -/
theorem child_failure_aborts_scope_counterexample :
    collect_repository_data_run (.ok ()) (.error (.githubEx 500 false)) (.ok 0) (.ok 0) =
      ([Kind.root, Kind.issues], .error (.githubEx 500 false)) ∧
    Kind.projects ∉ [Kind.root, Kind.issues] ∧
    Kind.milestones ∉ [Kind.root, Kind.issues] := by
  refine ⟨rfl, ?_, ?_⟩ <;> decide

/-- Claim C6, amended: a failing child kind aborts the remaining kinds of
its scope and the exception propagates out of `collect_repository_data`;
`collect_github_data` catches it per scope, so every scope in the run is
still processed. -/
theorem child_failure_propagates_scope_continues :
    (∀ (e : PyExc) (p m : Except PyExc Nat),
        collect_repository_data_run (.ok ()) (.error e) p m =
          ([Kind.root, Kind.issues], .error e)) ∧
    (∀ (outcome : String → List Kind × Except PyExc Unit) (repos : List String),
        (collect_github_data_run outcome repos).map Prod.fst = repos) := by
  constructor
  · intro e p m
    rfl
  · intro outcome repos
    unfold collect_github_data_run
    rw [List.map_map]
    exact List.map_congr_left (fun r _ => rfl) |>.trans (List.map_id repos)

/-- Claim C7, counterexample: a retryable server error raised while pulling
the first element of the lazy sequence propagates to the consumer with zero
backoff sleeps — it is not retried at all, although the same error on the
initial request would be. -/
theorem stream_error_not_retried_counterexample :
    get_issues_pull 3 1 [(Except.error (PyExc.githubEx 500 false) : Except PyExc Nat)]
        freshRateCache =
      (.error (.githubEx 500 false), []) := rfl

/-- Claim C7, amended: the retry wrapper is applied only to constructing the
generator, which cannot fail, so for any positive retry count the whole pull
reduces to plain consumption with no sleeps; an exception raised during
consumption propagates unretried. -/
theorem retry_wraps_only_generator_creation :
    (∀ (α : Type) (N delay : Nat) (stream : List (Except PyExc α)),
        0 < N →
        get_issues_pull N delay stream freshRateCache = (consumeStream stream, [])) ∧
    (∀ (α : Type) (e : PyExc) (rest : List (Except PyExc α)),
        consumeStream (.error e :: rest) = .error e) := by
  constructor
  · intro α N delay stream hN
    obtain ⟨m, rfl⟩ : ∃ m, N = m + 1 := ⟨N - 1, by omega⟩
    unfold get_issues_pull retry_on_exception
    rw [retryGo_ok rfl gateFires_fresh]
  · intro α e rest
    rfl

/-- Claim C7, witness for the amended theorem. -/
theorem retry_wraps_only_generator_creation_witness :
    get_issues_pull 3 1 [(Except.ok 5 : Except PyExc Nat)] freshRateCache =
      (.ok [5], []) :=
  (retry_wraps_only_generator_creation.1 Nat 3 1 [Except.ok 5] (by omega)).trans rfl

/-- Claim C8, counterexample: the valid ISO-8601 string
`2023-01-01T00:00:00`, which carries no zone marker, is accepted and the
stored timestamp is naive (no offset), contradicting the claim that every
accepted string yields a timezone-aware timestamp. -/
theorem timestamp_naive_counterexample :
    normalizeTimestamp "2023-01-01T00:00:00" = some ⟨2023, 1, 1, 0, 0, 0, 0, none⟩ ∧
    (normalizeTimestamp "2023-01-01T00:00:00").map PyDatetime.tzOffsetMinutes =
      some none := by
  exact ⟨by decide, by decide⟩

/-- Claim C8, amended: for a source string made of a valid date, a separator
and a valid zone-free time, conversion succeeds and preserves every field
but yields a naive timestamp; appending a trailing `Z` zone marker yields
the timezone-aware timestamp with offset zero and the same fields (the `Z`
is rewritten to `+00:00`, losslessly denoting the same instant). -/
theorem timestamp_zone_marker_awareness :
    ∀ (dcs tcs : List Char) (sep : Char) (y m d h mi s us : Nat),
      parseDate dcs = some ((y, m, d), []) →
      parseTime tcs = some ((h, mi, s, us), []) →
      (∀ c ∈ tcs, notSign c = true) →
      'Z' ∉ dcs → 'Z' ∉ tcs → sep ≠ 'Z' →
      normalizeTimestamp ⟨dcs ++ sep :: tcs⟩ = some ⟨y, m, d, h, mi, s, us, none⟩ ∧
      normalizeTimestamp ⟨dcs ++ sep :: (tcs ++ ['Z'])⟩ =
        some ⟨y, m, d, h, mi, s, us, some 0⟩ := by
  intro dcs tcs sep y m d h mi s us hdate htime hall hzd hzt hzs
  constructor
  · show fromisoformatChars (replaceZChars (dcs ++ sep :: tcs)) = _
    have hnoZ : 'Z' ∉ dcs ++ sep :: tcs := by
      intro hmem
      rcases List.mem_append.mp hmem with hm | hm
      · exact hzd hm
      · rcases List.mem_cons.mp hm with hm | hm
        · exact hzs hm.symm
        · exact hzt hm
    rw [replaceZChars_no_Z hnoZ]
    unfold fromisoformatChars
    have hd2 : parseDate (dcs ++ sep :: tcs) = some ((y, m, d), sep :: tcs) := by
      have := @parseDate_append dcs (sep :: tcs) [] (y, m, d) hdate
      simpa using this
    rw [hd2]
    dsimp only
    have ht : tcs.takeWhile notSign = tcs := by
      have := @takeWhile_append_all notSign tcs [] hall
      simpa using this
    have hdp : tcs.dropWhile notSign = [] := by
      have := @dropWhile_append_all notSign tcs [] hall
      simpa using this
    rw [ht, htime]
    dsimp only
    rw [if_pos rfl, hdp]
  · show fromisoformatChars (replaceZChars (dcs ++ sep :: (tcs ++ ['Z']))) = _
    have hrepl : replaceZChars (dcs ++ sep :: (tcs ++ ['Z'])) =
        dcs ++ sep :: (tcs ++ ('+' :: '0' :: '0' :: ':' :: '0' :: '0' :: [])) := by
      rw [replaceZChars_append, replaceZChars_no_Z hzd, replaceZChars_cons_ne hzs,
          replaceZChars_append, replaceZChars_no_Z hzt]
      rfl
    rw [hrepl]
    unfold fromisoformatChars
    have hd2 : parseDate (dcs ++ sep :: (tcs ++ ('+' :: '0' :: '0' :: ':' :: '0' :: '0' :: []))) =
        some ((y, m, d), sep :: (tcs ++ ('+' :: '0' :: '0' :: ':' :: '0' :: '0' :: []))) := by
      have := @parseDate_append dcs (sep :: (tcs ++ ('+' :: '0' :: '0' :: ':' :: '0' :: '0' :: [])))
        [] (y, m, d) hdate
      simpa using this
    rw [hd2]
    dsimp only
    have ht : (tcs ++ ('+' :: '0' :: '0' :: ':' :: '0' :: '0' :: [])).takeWhile notSign = tcs := by
      rw [takeWhile_append_all _ hall]
      simp [List.takeWhile_cons, notSign]
    have hdp : (tcs ++ ('+' :: '0' :: '0' :: ':' :: '0' :: '0' :: [])).dropWhile notSign =
        '+' :: '0' :: '0' :: ':' :: '0' :: '0' :: [] := by
      rw [dropWhile_append_all _ hall]
      simp [List.dropWhile_cons, notSign]
    rw [ht, htime]
    dsimp only
    rw [if_pos rfl, hdp]
    dsimp only
    rw [show parseOffset '+' ('0' :: '0' :: ':' :: '0' :: '0' :: []) = some 0 from rfl]

/-- Claim C8, witness for the amended theorem. -/
theorem timestamp_zone_marker_awareness_witness :
    normalizeTimestamp "2023-01-01T12:34:56" = some ⟨2023, 1, 1, 12, 34, 56, 0, none⟩ ∧
    normalizeTimestamp "2023-01-01T12:34:56Z" =
      some ⟨2023, 1, 1, 12, 34, 56, 0, some 0⟩ := by
  have base := timestamp_zone_marker_awareness ("2023-01-01".data) ("12:34:56".data) 'T'
    2023 1 1 12 34 56 0 (by decide) (by decide) (by decide) (by decide) (by decide) (by decide)
  have e1 : ("2023-01-01T12:34:56" : String) = ⟨"2023-01-01".data ++ 'T' :: "12:34:56".data⟩ := by
    decide
  have e2 : ("2023-01-01T12:34:56Z" : String) =
      ⟨"2023-01-01".data ++ 'T' :: ("12:34:56".data ++ ['Z'])⟩ := by decide
  exact ⟨by rw [e1]; exact base.1, by rw [e2]; exact base.2⟩

/-- Claim C9: issue construction succeeds exactly when `state` is `open` or
`closed`; milestone construction with nonnegative counters succeeds exactly
when `state` is `open` or `closed`; and the spec's scenario — a milestone
with `state` set to `merged` — fails with the pattern `ValidationError`. -/
theorem state_enum_validation :
    (∀ (id number : Int) (title : String) (body : Option String) (state : String)
        (labels assignees : List String) (ca ua : PyDatetime) (cl : Option PyDatetime),
        (∃ v, mkGitHubIssue id number title body state labels assignees ca ua cl = .ok v) ↔
          (state = "open" ∨ state = "closed")) ∧
    (∀ (id number : Int) (title : String) (description : Option String) (state : String)
        (due : Option PyDatetime) (ca ua : PyDatetime) (oi ci : Int),
        0 ≤ oi → 0 ≤ ci →
        ((∃ v, mkGitHubMilestone id number title description state due ca ua oi ci = .ok v) ↔
          (state = "open" ∨ state = "closed"))) ∧
    mkGitHubMilestone 101 1 "Sprint 1" none "merged" none ⟨2023, 1, 1, 0, 0, 0, 0, none⟩
        ⟨2023, 1, 2, 0, 0, 0, 0, none⟩ 5 2 =
      .error (.patternMismatch "state" "merged") := by
  refine ⟨?_, ?_, rfl⟩
  · intro id number title body state labels assignees ca ua cl
    constructor
    · rintro ⟨v, hv⟩
      unfold mkGitHubIssue at hv
      split at hv
      · rename_i hb
        simpa [statePatternOk] using hb
      · cases hv
    · intro h
      have hb : statePatternOk state = true := by
        rcases h with h | h <;> simp [statePatternOk, h]
      exact ⟨⟨id, number, title, body, state, labels, assignees, ca, ua, cl⟩,
        by simp [mkGitHubIssue, hb]⟩
  · intro id number title description state due ca ua oi ci hoi hci
    constructor
    · rintro ⟨v, hv⟩
      unfold mkGitHubMilestone at hv
      split at hv
      · cases hv
      · rename_i hb
        have : statePatternOk state = true := by
          rcases hs : statePatternOk state with _ | _
          · exact absurd hs (by simpa using hb)
          · rfl
        simpa [statePatternOk] using this
    · intro h
      have hb : statePatternOk state = true := by
        rcases h with h | h <;> simp [statePatternOk, h]
      refine ⟨⟨id, number, title, description, state, due, ca, ua, oi, ci⟩, ?_⟩
      unfold mkGitHubMilestone
      rw [if_neg (by simp [hb]), if_neg (by omega), if_neg (by omega)]

/-- Claim C9, witness. -/
theorem state_enum_validation_witness :
    ∃ v, mkGitHubMilestone 7 2 "v1" none "open" none ⟨2023, 1, 1, 0, 0, 0, 0, none⟩
        ⟨2023, 1, 2, 0, 0, 0, 0, none⟩ 3 4 = .ok v :=
  (state_enum_validation.2.1 7 2 "v1" none "open" none ⟨2023, 1, 1, 0, 0, 0, 0, none⟩
    ⟨2023, 1, 2, 0, 0, 0, 0, none⟩ 3 4 (by omega) (by omega)).mpr (Or.inl rfl)

/-- Claim C10, counterexample: in the C4 schema manager a failure of the
first constraint aborts the run — only that statement is attempted, the
error propagates, and the Container constraint is never attempted,
contradicting declaration independence for every entity label. -/
theorem c4_schema_abort_counterexample :
    create_schema (fun s =>
        s == "CREATE CONSTRAINT context_name_unique IF NOT EXISTS FOR (c:Context) REQUIRE c.name IS UNIQUE") =
      (["CREATE CONSTRAINT context_name_unique IF NOT EXISTS FOR (c:Context) REQUIRE c.name IS UNIQUE"],
        .error "CREATE CONSTRAINT context_name_unique IF NOT EXISTS FOR (c:Context) REQUIRE c.name IS UNIQUE") ∧
    "CREATE CONSTRAINT container_name_unique IF NOT EXISTS FOR (c:Container) REQUIRE c.name IS UNIQUE" ∉
      (create_schema (fun s =>
        s == "CREATE CONSTRAINT context_name_unique IF NOT EXISTS FOR (c:Context) REQUIRE c.name IS UNIQUE")).1 := by
  refine ⟨rfl, ?_⟩
  decide

/-- Claim C10, amended: in `create_github_schema` every one of the ten
declarations is attempted no matter which ones fail, because each loop body
has its own exception handler; in the C4 `create_schema` a failure of the
first constraint stops the run after that single statement. -/
theorem schema_manager_independence_amended :
    (∀ fails : String → Bool,
        (create_github_schema fails).1 = githubSchemaConstraints ++ githubSchemaIndexes) ∧
    (∀ fails : String → Bool,
        fails "CREATE CONSTRAINT context_name_unique IF NOT EXISTS FOR (c:Context) REQUIRE c.name IS UNIQUE" = true →
        create_schema fails =
          (["CREATE CONSTRAINT context_name_unique IF NOT EXISTS FOR (c:Context) REQUIRE c.name IS UNIQUE"],
            .error "CREATE CONSTRAINT context_name_unique IF NOT EXISTS FOR (c:Context) REQUIRE c.name IS UNIQUE")) := by
  constructor
  · intro fails
    unfold create_github_schema runIndependent
    dsimp only
    rw [runIndependent_fst fails "Warning: Could not create constraint" githubSchemaConstraints ([], []),
        runIndependent_fst fails "Warning: Could not create index" githubSchemaIndexes ([], [])]
    rfl
  · intro fails hf
    have e : c4SchemaConstraints ++ c4SchemaIndexes =
        "CREATE CONSTRAINT context_name_unique IF NOT EXISTS FOR (c:Context) REQUIRE c.name IS UNIQUE" ::
          (c4SchemaConstraints.tail ++ c4SchemaIndexes) := rfl
    unfold create_schema
    rw [e]
    unfold runSeq
    rw [hf]
    simp

/-- Claim C10, witness for the amended theorem. -/
theorem schema_manager_independence_amended_witness :
    create_schema (fun s =>
        s == "CREATE CONSTRAINT context_name_unique IF NOT EXISTS FOR (c:Context) REQUIRE c.name IS UNIQUE") =
      (["CREATE CONSTRAINT context_name_unique IF NOT EXISTS FOR (c:Context) REQUIRE c.name IS UNIQUE"],
        .error "CREATE CONSTRAINT context_name_unique IF NOT EXISTS FOR (c:Context) REQUIRE c.name IS UNIQUE") ∧
    (create_github_schema (fun _ => true)).1.length = 10 := by
  constructor
  · exact schema_manager_independence_amended.2 _ (by decide)
  · rw [schema_manager_independence_amended.1 (fun _ => true)]
    rfl

theorem setProps_cons (p : Props) (k : String) (v : PVal) (t : Props) :
    setProps p ((k, v) :: t) = setProps (setProp p k v) t := rfl

theorem setProp_of_nil (k : String) (v : PVal) : setProp [] k v = [(k, v)] := rfl

theorem eraseKeys_nil_sp (p : Props) : eraseKeys [] p = p := by
  unfold eraseKeys propKeys
  simp

theorem eraseKeys_append (sp : Props) (p q : Props) :
    eraseKeys sp (p ++ q) = eraseKeys sp p ++ eraseKeys sp q := by
  unfold eraseKeys
  exact List.filter_append _ _

theorem eraseKeys_cons_key (k : String) (v : PVal) (t : Props) (p : Props) :
    eraseKeys ((k, v) :: t) p = eraseKeys t (List.filter (fun kv => decide (kv.1 ≠ k)) p) := by
  unfold eraseKeys propKeys
  rw [List.filter_filter]
  apply List.filter_congr
  intro kv _
  by_cases h1 : kv.1 = k <;> by_cases h2 : kv.1 ∈ t.map Prod.fst <;> simp [h1, h2]

theorem setProps_normal : ∀ (sp p : Props), setProps p sp = eraseKeys sp p ++ setProps [] sp := by
  intro sp
  induction sp with
  | nil =>
    intro p
    simp [setProps, eraseKeys_nil_sp]
  | cons kv t ih =>
    intro p
    obtain ⟨k, v⟩ := kv
    rw [setProps_cons, setProps_cons, ih (setProp p k v), ih (setProp [] k v),
        setProp_of_nil, eraseKeys_cons_key]
    unfold setProp
    rw [eraseKeys_append]
    simp [List.append_assoc]

theorem mem_setProps_keys : ∀ (sp q : Props) (kv : String × PVal),
    kv ∈ setProps q sp → kv ∈ q ∨ kv.1 ∈ propKeys sp := by
  intro sp
  induction sp with
  | nil =>
    intro q kv h
    exact Or.inl h
  | cons a t ih =>
    intro q kv h
    obtain ⟨k, v⟩ := a
    rw [setProps_cons] at h
    rcases ih (setProp q k v) kv h with hm | hm
    · unfold setProp at hm
      rcases List.mem_append.mp hm with hm2 | hm2
      · exact Or.inl (List.mem_of_mem_filter hm2)
      · simp only [List.mem_singleton] at hm2
        right
        simp [propKeys, hm2]
    · right
      simp [propKeys] at hm ⊢
      exact Or.inr hm

theorem eraseKeys_eraseKeys (sp p : Props) :
    eraseKeys sp (eraseKeys sp p) = eraseKeys sp p := by
  unfold eraseKeys
  rw [List.filter_filter]
  apply List.filter_congr
  intro kv _
  by_cases h : kv.1 ∈ propKeys sp <;> simp [h]

theorem eraseKeys_canon (sp : Props) : eraseKeys sp (setProps [] sp) = [] := by
  unfold eraseKeys
  rw [List.filter_eq_nil_iff]
  intro kv hm
  rcases mem_setProps_keys sp [] kv hm with hm2 | hm2
  · cases hm2
  · simp [hm2]

theorem setProps_idem (p sp : Props) :
    setProps (setProps p sp) sp = setProps p sp := by
  rw [setProps_normal sp p, setProps_normal sp (eraseKeys sp p ++ setProps [] sp),
      eraseKeys_append, eraseKeys_eraseKeys, eraseKeys_canon]
  simp

theorem lookup_cons_pair (a k : String) (v : PVal) (t : List (String × PVal)) :
    List.lookup a ((k, v) :: t) = if a == k then some v else List.lookup a t := by
  cases hak : a == k <;> simp [List.lookup, hak]

theorem lookup_append_none {a : String} : ∀ {l1 l2 : List (String × PVal)},
    List.lookup a l1 = none → List.lookup a (l1 ++ l2) = List.lookup a l2 := by
  intro l1
  induction l1 with
  | nil => intro l2 _; rfl
  | cons kv t ih =>
    intro l2 h
    obtain ⟨k, v⟩ := kv
    rw [lookup_cons_pair] at h
    rw [List.cons_append, lookup_cons_pair]
    by_cases hk : a == k
    · rw [if_pos hk] at h
      cases h
    · rw [if_neg hk] at h ⊢
      exact ih h

theorem lookup_append_some {a : String} {v : PVal} : ∀ {l1 l2 : List (String × PVal)},
    List.lookup a l1 = some v → List.lookup a (l1 ++ l2) = some v := by
  intro l1
  induction l1 with
  | nil => intro l2 h; cases h
  | cons kv t ih =>
    intro l2 h
    obtain ⟨k, w⟩ := kv
    rw [lookup_cons_pair] at h
    rw [List.cons_append, lookup_cons_pair]
    by_cases hk : a == k
    · rw [if_pos hk] at h ⊢
      exact h
    · rw [if_neg hk] at h ⊢
      exact ih h

theorem lookup_filter_keep {a : String} {pred : String × PVal → Bool} :
    ∀ {l : List (String × PVal)},
      (∀ kv : String × PVal, kv.1 = a → pred kv = true) →
      List.lookup a (l.filter pred) = List.lookup a l := by
  intro l h
  induction l with
  | nil => rfl
  | cons kv t ih =>
    obtain ⟨k, v⟩ := kv
    by_cases hk : k = a
    · rw [List.filter_cons, if_pos (h (k, v) hk)]
      rw [lookup_cons_pair, lookup_cons_pair]
      by_cases ha : a == k
      · rw [if_pos ha, if_pos ha]
      · rw [if_neg ha, if_neg ha]
        exact ih
    · have hbeq : (a == k) = false := by
        simp
        exact fun e => hk e.symm
      rw [List.filter_cons]
      by_cases hp : pred (k, v) = true
      · rw [if_pos hp, lookup_cons_pair, if_neg (by simp [hbeq]), lookup_cons_pair,
            if_neg (by simp [hbeq])]
        exact ih
      · rw [if_neg hp, lookup_cons_pair, if_neg (by simp [hbeq])]
        exact ih

theorem lookup_none_of_keys {a : String} : ∀ {l : List (String × PVal)},
    a ∉ l.map Prod.fst → List.lookup a l = none := by
  intro l h
  induction l with
  | nil => rfl
  | cons kv t ih =>
    obtain ⟨k, v⟩ := kv
    simp only [List.map_cons, List.mem_cons, not_or] at h
    rw [lookup_cons_pair, if_neg (by simp [h.1])]
    exact ih h.2

theorem lookup_setProps_not_mem {a : String} {p sp : Props}
    (h : a ∉ propKeys sp) :
    List.lookup a (setProps p sp) = List.lookup a p := by
  rw [setProps_normal]
  have h1 : List.lookup a (setProps [] sp) = none := by
    apply lookup_none_of_keys
    intro hm
    obtain ⟨kv, hkv, he⟩ := List.mem_map.mp hm
    rcases mem_setProps_keys sp [] kv hkv with h2 | h2
    · cases h2
    · rw [he] at h2
      exact h h2
  have h2 : List.lookup a (eraseKeys sp p) = List.lookup a p := by
    unfold eraseKeys
    apply lookup_filter_keep
    intro kv hk
    rw [hk]
    simp [h]
  cases h3 : List.lookup a (eraseKeys sp p) with
  | none => rw [lookup_append_none h3, h1, ← h2, h3]
  | some v => rw [lookup_append_some h3, ← h2, h3]

theorem mergeEdge_nodes (g : Graph) (e : GEdge) : (mergeEdge g e).nodes = g.nodes := by
  unfold mergeEdge
  split <;> rfl

theorem mergeNode_edges (g : Graph) (L : String) (key : String × PVal) (sp : Props) :
    (mergeNode g L key sp).edges = g.edges := by
  unfold mergeNode
  split <;> rfl

theorem mem_edges_mergeNode {g : Graph} {e : GEdge} (L : String) (key : String × PVal)
    (sp : Props) (h : e ∈ g.edges) : e ∈ (mergeNode g L key sp).edges := by
  rw [mergeNode_edges]
  exact h

theorem mem_edges_mergeEdge {g : Graph} {e : GEdge} (e2 : GEdge) (h : e ∈ g.edges) :
    e ∈ (mergeEdge g e2).edges := by
  unfold mergeEdge
  split
  · exact h
  · exact List.mem_append_left _ h

theorem mergeEdge_mem_self (g : Graph) (e : GEdge) : e ∈ (mergeEdge g e).edges := by
  unfold mergeEdge
  split
  · assumption
  · simp

theorem mergeEdge_of_mem {g : Graph} {e : GEdge} (h : e ∈ g.edges) : mergeEdge g e = g := by
  unfold mergeEdge
  rw [if_pos h]

theorem nodeIs_both {n : GNode} {L L2 : String} {key k2 : String × PVal}
    (h1 : nodeIs n L key = true) (h2 : nodeIs n L2 k2 = true) : (L2, k2) = (L, key) := by
  unfold nodeIs at h1 h2
  simp only [Bool.and_eq_true, decide_eq_true_eq] at h1 h2
  rw [← h1.1, ← h1.2, ← h2.1, ← h2.2]

theorem nodeIs_update (n : GNode) (X : Props) (L : String) (key : String × PVal) :
    nodeIs { n with props := X } L key = nodeIs n L key := rfl

theorem nodeRefOf_update (n : GNode) (X : Props) :
    nodeRefOf { n with props := X } = nodeRefOf n := rfl

theorem NodeSat_mergeNode_self (g : Graph) (L : String) (key : String × PVal) (sp : Props) :
    NodeSat (mergeNode g L key sp) L key sp := by
  unfold mergeNode
  by_cases hex : g.nodes.any (fun n => nodeIs n L key) = true
  · rw [if_pos hex]
    constructor
    · obtain ⟨n, hn, hni⟩ := List.any_eq_true.mp hex
      refine ⟨{ n with props := setProps n.props sp }, ?_, ?_⟩
      · have : (if nodeIs n L key then { n with props := setProps n.props sp } else n) =
            { n with props := setProps n.props sp } := by rw [if_pos hni]
        exact this ▸ List.mem_map_of_mem _ hn
      · rw [nodeIs_update]
        exact hni
    · intro n hn hni
      obtain ⟨n0, hn0, he⟩ := List.mem_map.mp hn
      by_cases h0 : nodeIs n0 L key = true
      · rw [if_pos h0] at he
        rw [← he]
        exact setProps_idem n0.props sp
      · rw [if_neg h0] at he
        rw [← he] at hni
        exact absurd hni h0
  · rw [if_neg hex]
    constructor
    · refine ⟨⟨L, key, setProps [] sp⟩, by simp, ?_⟩
      simp [nodeIs]
    · intro n hn hni
      rcases List.mem_append.mp hn with hm | hm
      · exact absurd (List.any_eq_true.mpr ⟨n, hm, hni⟩) hex
      · simp only [List.mem_singleton] at hm
        rw [hm]
        exact setProps_idem [] sp

theorem mergeNode_of_NodeSat {g : Graph} {L : String} {key : String × PVal} {sp : Props}
    (h : NodeSat g L key sp) : mergeNode g L key sp = g := by
  unfold mergeNode
  obtain ⟨⟨n, hn, hni⟩, hall⟩ := h
  rw [if_pos (List.any_eq_true.mpr ⟨n, hn, hni⟩)]
  have hmap : g.nodes.map (fun n =>
      if nodeIs n L key then { n with props := setProps n.props sp } else n) = g.nodes := by
    rw [show g.nodes.map (fun n =>
        if nodeIs n L key then { n with props := setProps n.props sp } else n) =
        g.nodes.map id from List.map_congr_left ?_, List.map_id]
    intro n0 hn0
    by_cases h0 : nodeIs n0 L key = true
    · rw [if_pos h0, hall n0 hn0 h0]
      rfl
    · rw [if_neg h0]
      rfl
  rw [hmap]

theorem NodeSat_mergeNode_ne {g : Graph} {L L2 : String} {key k2 : String × PVal}
    {sp sp2 : Props} (hne : (L2, k2) ≠ (L, key)) (h : NodeSat g L key sp) :
    NodeSat (mergeNode g L2 k2 sp2) L key sp := by
  unfold mergeNode
  obtain ⟨⟨n, hn, hni⟩, hall⟩ := h
  split
  · constructor
    · refine ⟨n, ?_, hni⟩
      have : (if nodeIs n L2 k2 then { n with props := setProps n.props sp2 } else n) = n := by
        rw [if_neg (fun h2 => hne (nodeIs_both hni h2))]
      exact this ▸ List.mem_map_of_mem _ hn
    · intro n2 hn2 hni2
      obtain ⟨n0, hn0, he⟩ := List.mem_map.mp hn2
      by_cases h0 : nodeIs n0 L2 k2 = true
      · rw [if_pos h0] at he
        rw [← he, nodeIs_update] at hni2
        exact absurd (nodeIs_both hni2 h0) hne
      · rw [if_neg h0] at he
        rw [← he]
        exact hall n0 hn0 (he ▸ hni2)
  · constructor
    · exact ⟨n, List.mem_append_left _ hn, hni⟩
    · intro n2 hn2 hni2
      rcases List.mem_append.mp hn2 with hm | hm
      · exact hall n2 hm hni2
      · simp only [List.mem_singleton] at hm
        rw [hm] at hni2
        have : (L2, k2) = (L, key) := by
          unfold nodeIs at hni2
          simp only [Bool.and_eq_true, decide_eq_true_eq] at hni2
          rw [← hni2.1, ← hni2.2]
        exact absurd this hne

theorem NodeSat_mergeEdge {g : Graph} {L : String} {key : String × PVal} {sp : Props}
    (e : GEdge) (h : NodeSat g L key sp) : NodeSat (mergeEdge g e) L key sp := by
  unfold NodeSat at h ⊢
  rw [mergeEdge_nodes]
  exact h

theorem lookupProp_update (n : GNode) (X : Props) (mP : String) :
    GNode.lookupProp { n with props := X } mP =
      if n.key.1 = mP then some n.key.2 else X.lookup mP := rfl

theorem filter_map_ref_congr {f : GNode → GNode} {pred : GNode → Bool} :
    ∀ {l : List GNode},
      (∀ n ∈ l, pred (f n) = pred n ∧ nodeRefOf (f n) = nodeRefOf n) →
      ((l.map f).filter pred).map nodeRefOf = (l.filter pred).map nodeRefOf := by
  intro l h
  induction l with
  | nil => rfl
  | cons c t ih =>
    have hc := h c (by simp)
    simp only [List.map_cons, List.filter_cons, hc.1]
    by_cases hp : pred c = true
    · rw [if_pos hp, if_pos hp]
      simp only [List.map_cons, hc.2]
      rw [ih (fun n hn => h n (by simp [hn]))]
    · rw [if_neg hp, if_neg hp]
      exact ih (fun n hn => h n (by simp [hn]))

theorem writer_preserves_pred {n : GNode} {L2 : String} {k2 : String × PVal} {sp2 : Props}
    {mL mP : String} {mV : PVal}
    (hok : WriterOk (L2, k2, sp2) (mL, mP, mV)) (hni : nodeIs n L2 k2 = true) :
    (decide ((GNode.mk n.label n.key (setProps n.props sp2)).label = mL) &&
      decide ((GNode.mk n.label n.key (setProps n.props sp2)).lookupProp mP = some mV)) =
    (decide (n.label = mL) && decide (n.lookupProp mP = some mV)) := by
  unfold nodeIs at hni
  simp only [Bool.and_eq_true, decide_eq_true_eq] at hni
  rcases hok with hok | hok | hok
  · have h1 : decide (n.label = mL) = false := by
      simp only [decide_eq_false_iff_not]
      rw [hni.1]
      exact fun e => hok e
    rw [h1]
    simp
  · -- shadow: the key property is the matched property
    have hk1 : n.key.1 = mP := by
      rw [hni.2]
      exact hok.1
    have heq : (GNode.mk n.label n.key (setProps n.props sp2)).lookupProp mP =
        n.lookupProp mP := by
      show ({ n with props := setProps n.props sp2 } : GNode).lookupProp mP = n.lookupProp mP
      rw [lookupProp_update]
      unfold GNode.lookupProp
      rw [if_pos hk1, if_pos hk1]
    rw [heq]
  · -- the matched property is neither the key nor written
    have hk1 : ¬ n.key.1 = mP := by
      rw [hni.2]
      exact hok.1
    have heq : (GNode.mk n.label n.key (setProps n.props sp2)).lookupProp mP =
        n.lookupProp mP := by
      show ({ n with props := setProps n.props sp2 } : GNode).lookupProp mP = n.lookupProp mP
      rw [lookupProp_update]
      unfold GNode.lookupProp
      rw [if_neg hk1, if_neg hk1]
      exact lookup_setProps_not_mem hok.2
    rw [heq]

theorem writer_new_node_pred {L2 : String} {k2 : String × PVal} {sp2 : Props}
    {mL mP : String} {mV : PVal}
    (hok : WriterOk (L2, k2, sp2) (mL, mP, mV)) :
    (decide ((GNode.mk L2 k2 (setProps [] sp2)).label = mL) &&
      decide ((GNode.mk L2 k2 (setProps [] sp2)).lookupProp mP = some mV)) = false := by
  rcases hok with hok | hok | hok
  · have : decide ((GNode.mk L2 k2 (setProps [] sp2)).label = mL) = false := by
      simp only [decide_eq_false_iff_not]
      exact hok
    rw [this]
    simp
  · have : decide ((GNode.mk L2 k2 (setProps [] sp2)).lookupProp mP = some mV) = false := by
      simp only [decide_eq_false_iff_not]
      unfold GNode.lookupProp
      show ¬ (if k2.1 = mP then some k2.2 else (setProps [] sp2).lookup mP) = some mV
      rw [if_pos hok.1]
      intro he
      exact hok.2 (Option.some.inj he)
    rw [this]
    simp
  · have : decide ((GNode.mk L2 k2 (setProps [] sp2)).lookupProp mP = some mV) = false := by
      simp only [decide_eq_false_iff_not]
      unfold GNode.lookupProp
      show ¬ (if k2.1 = mP then some k2.2 else (setProps [] sp2).lookup mP) = some mV
      rw [if_neg hok.1]
      rw [show (setProps [] sp2).lookup mP = List.lookup mP [] from lookup_setProps_not_mem hok.2]
      simp
    rw [this]
    simp

theorem matchRefs_mergeEdge (g : Graph) (e : GEdge) (mL mP : String) (mV : PVal) :
    matchRefs (mergeEdge g e) mL mP mV = matchRefs g mL mP mV := by
  unfold matchRefs matchNodesByProp
  rw [mergeEdge_nodes]

theorem matchRefs_mergeNode_ok {g : Graph} {L2 : String} {k2 : String × PVal} {sp2 : Props}
    {mL mP : String} {mV : PVal}
    (hok : WriterOk (L2, k2, sp2) (mL, mP, mV)) :
    matchRefs (mergeNode g L2 k2 sp2) mL mP mV = matchRefs g mL mP mV := by
  unfold mergeNode
  split
  · unfold matchRefs matchNodesByProp
    apply filter_map_ref_congr
    intro n _
    by_cases h0 : nodeIs n L2 k2 = true
    · rw [if_pos h0]
      exact ⟨writer_preserves_pred hok h0, rfl⟩
    · rw [if_neg h0]
      exact ⟨rfl, rfl⟩
  · unfold matchRefs matchNodesByProp
    rw [List.filter_append]
    rw [show List.filter (fun n => decide (n.label = mL) && decide (n.lookupProp mP = some mV))
          [GNode.mk L2 k2 (setProps [] sp2)] = [] from by
        rw [List.filter_cons, if_neg (by rw [writer_new_node_pred hok]; simp)]
        rfl]
    simp

theorem mm_fold_edges_mono {cL : String} {cK : String × PVal} {sp : Props} {rel : String}
    {e : GEdge} : ∀ (rs : List NodeRef) (g : Graph), e ∈ g.edges →
      e ∈ (rs.foldl (fun acc r => mergeEdge (mergeNode acc cL cK sp)
        ⟨rel, ⟨cL, cK⟩, r⟩) g).edges := by
  intro rs
  induction rs with
  | nil => exact fun g h => h
  | cons r t ih =>
    intro g h
    exact ih _ (mem_edges_mergeEdge _ (mem_edges_mergeNode _ _ _ h))

theorem mm_fold_NodeSat_ne {cL L : String} {cK key : String × PVal} {sp sp0 : Props}
    {rel : String} (hne : (cL, cK) ≠ (L, key)) :
    ∀ (rs : List NodeRef) (g : Graph), NodeSat g L key sp0 →
      NodeSat (rs.foldl (fun acc r => mergeEdge (mergeNode acc cL cK sp)
        ⟨rel, ⟨cL, cK⟩, r⟩) g) L key sp0 := by
  intro rs
  induction rs with
  | nil => exact fun g h => h
  | cons r t ih =>
    intro g h
    exact ih _ (NodeSat_mergeEdge _ (NodeSat_mergeNode_ne hne h))

theorem mm_fold_NodeSat_self {cL : String} {cK : String × PVal} {sp : Props} {rel : String} :
    ∀ (rs : List NodeRef) (g : Graph), rs ≠ [] →
      NodeSat (rs.foldl (fun acc r => mergeEdge (mergeNode acc cL cK sp)
        ⟨rel, ⟨cL, cK⟩, r⟩) g) cL cK sp := by
  intro rs
  induction rs with
  | nil => exact fun g h => absurd rfl h
  | cons r t ih =>
    intro g _
    cases t with
    | nil => exact NodeSat_mergeEdge _ (NodeSat_mergeNode_self _ _ _ _)
    | cons r2 t2 => exact ih _ (by simp)

theorem mm_fold_matchRefs {cL : String} {cK : String × PVal} {sp : Props} {rel : String}
    {mL mP : String} {mV : PVal} (hok : WriterOk (cL, cK, sp) (mL, mP, mV)) :
    ∀ (rs : List NodeRef) (g : Graph),
      matchRefs (rs.foldl (fun acc r => mergeEdge (mergeNode acc cL cK sp)
        ⟨rel, ⟨cL, cK⟩, r⟩) g) mL mP mV = matchRefs g mL mP mV := by
  intro rs
  induction rs with
  | nil => exact fun g => rfl
  | cons r t ih =>
    intro g
    rw [List.foldl_cons, ih, matchRefs_mergeEdge, matchRefs_mergeNode_ok hok]

theorem mm_fold_edges_est {cL : String} {cK : String × PVal} {sp : Props} {rel : String} :
    ∀ (rs : List NodeRef) (g : Graph), ∀ r ∈ rs,
      GEdge.mk rel ⟨cL, cK⟩ r ∈ (rs.foldl (fun acc r => mergeEdge (mergeNode acc cL cK sp)
        ⟨rel, ⟨cL, cK⟩, r⟩) g).edges := by
  intro rs
  induction rs with
  | nil => intro g r h; cases h
  | cons r0 t ih =>
    intro g r h
    rcases List.mem_cons.mp h with he | ht
    · rw [he, List.foldl_cons]
      exact mm_fold_edges_mono t _ (mergeEdge_mem_self _ _)
    · exact ih _ r ht

theorem mm_fold_id {cL : String} {cK : String × PVal} {sp : Props} {rel : String} :
    ∀ (rs : List NodeRef) (g : Graph), NodeSat g cL cK sp →
      (∀ r ∈ rs, GEdge.mk rel ⟨cL, cK⟩ r ∈ g.edges) →
      rs.foldl (fun acc r => mergeEdge (mergeNode acc cL cK sp)
        ⟨rel, ⟨cL, cK⟩, r⟩) g = g := by
  intro rs
  induction rs with
  | nil => exact fun g _ _ => rfl
  | cons r t ih =>
    intro g hsat hedges
    rw [List.foldl_cons, mergeNode_of_NodeSat hsat, mergeEdge_of_mem (hedges r (by simp))]
    exact ih g hsat (fun r2 h2 => hedges r2 (by simp [h2]))

theorem me_fold_nodes {rel : String} {s : NodeRef} :
    ∀ (ts : List NodeRef) (g : Graph),
      (ts.foldl (fun acc2 d => mergeEdge acc2 ⟨rel, s, d⟩) g).nodes = g.nodes := by
  intro ts
  induction ts with
  | nil => exact fun g => rfl
  | cons d t ih =>
    intro g
    rw [List.foldl_cons, ih, mergeEdge_nodes]

theorem me_fold2_nodes {rel : String} {ts : List NodeRef} :
    ∀ (ss : List NodeRef) (g : Graph),
      (ss.foldl (fun acc s => ts.foldl (fun acc2 d => mergeEdge acc2 ⟨rel, s, d⟩) acc) g).nodes =
        g.nodes := by
  intro ss
  induction ss with
  | nil => exact fun g => rfl
  | cons s t ih =>
    intro g
    rw [List.foldl_cons, ih, me_fold_nodes]

theorem me_fold_edges_mono {rel : String} {s : NodeRef} {e : GEdge} :
    ∀ (ts : List NodeRef) (g : Graph), e ∈ g.edges →
      e ∈ (ts.foldl (fun acc2 d => mergeEdge acc2 ⟨rel, s, d⟩) g).edges := by
  intro ts
  induction ts with
  | nil => exact fun g h => h
  | cons d t ih =>
    intro g h
    exact ih _ (mem_edges_mergeEdge _ h)

theorem me_fold2_edges_mono {rel : String} {ts : List NodeRef} {e : GEdge} :
    ∀ (ss : List NodeRef) (g : Graph), e ∈ g.edges →
      e ∈ (ss.foldl (fun acc s => ts.foldl (fun acc2 d => mergeEdge acc2 ⟨rel, s, d⟩) acc) g).edges := by
  intro ss
  induction ss with
  | nil => exact fun g h => h
  | cons s t ih =>
    intro g h
    exact ih _ (me_fold_edges_mono _ _ h)

theorem me_fold_edges_est {rel : String} {s : NodeRef} :
    ∀ (ts : List NodeRef) (g : Graph), ∀ d ∈ ts,
      GEdge.mk rel s d ∈ (ts.foldl (fun acc2 d => mergeEdge acc2 ⟨rel, s, d⟩) g).edges := by
  intro ts
  induction ts with
  | nil => intro g d h; cases h
  | cons d0 t ih =>
    intro g d h
    rcases List.mem_cons.mp h with he | ht
    · rw [he, List.foldl_cons]
      exact me_fold_edges_mono t _ (mergeEdge_mem_self _ _)
    · exact ih _ d ht

theorem me_fold2_edges_est {rel : String} {ts : List NodeRef} :
    ∀ (ss : List NodeRef) (g : Graph), ∀ s ∈ ss, ∀ d ∈ ts,
      GEdge.mk rel s d ∈
        (ss.foldl (fun acc s => ts.foldl (fun acc2 d => mergeEdge acc2 ⟨rel, s, d⟩) acc) g).edges := by
  intro ss
  induction ss with
  | nil => intro g s h; cases h
  | cons s0 t ih =>
    intro g s h d hd
    rcases List.mem_cons.mp h with he | ht
    · rw [he, List.foldl_cons]
      exact me_fold2_edges_mono t _ (me_fold_edges_est ts _ d hd)
    · exact ih _ s ht d hd

theorem me_fold_id {rel : String} {s : NodeRef} :
    ∀ (ts : List NodeRef) (g : Graph), (∀ d ∈ ts, GEdge.mk rel s d ∈ g.edges) →
      ts.foldl (fun acc2 d => mergeEdge acc2 ⟨rel, s, d⟩) g = g := by
  intro ts
  induction ts with
  | nil => exact fun g _ => rfl
  | cons d t ih =>
    intro g h
    rw [List.foldl_cons, mergeEdge_of_mem (h d (by simp))]
    exact ih g (fun d2 h2 => h d2 (by simp [h2]))

theorem me_fold2_id {rel : String} {ts : List NodeRef} :
    ∀ (ss : List NodeRef) (g : Graph), (∀ s ∈ ss, ∀ d ∈ ts, GEdge.mk rel s d ∈ g.edges) →
      ss.foldl (fun acc s => ts.foldl (fun acc2 d => mergeEdge acc2 ⟨rel, s, d⟩) acc) g = g := by
  intro ss
  induction ss with
  | nil => exact fun g _ => rfl
  | cons s t ih =>
    intro g h
    rw [List.foldl_cons, me_fold_id ts g (h s (by simp))]
    exact ih g (fun s2 h2 => h s2 (by simp [h2]))

theorem applyStmt_mergeN (g : Graph) (L : String) (key : String × PVal) (sp : Props) :
    applyStmt g (.mergeN L key sp) = mergeNode g L key sp := rfl

theorem applyStmt_matchMerge (g : Graph) (mL mP : String) (mV : PVal) (cL : String)
    (cK : String × PVal) (sp : Props) (rel : String) :
    applyStmt g (.matchMerge mL mP mV cL cK sp rel) =
      (matchRefs g mL mP mV).foldl (fun acc r =>
        mergeEdge (mergeNode acc cL cK sp) ⟨rel, ⟨cL, cK⟩, r⟩) g := rfl

theorem applyStmt_matchEdge (g : Graph) (sL sP : String) (sV : PVal) (dL dP : String)
    (dV : PVal) (rel : String) :
    applyStmt g (.matchEdge sL sP sV dL dP dV rel) =
      (matchRefs g sL sP sV).foldl (fun acc s =>
        (matchRefs g dL dP dV).foldl (fun acc2 d => mergeEdge acc2 ⟨rel, s, d⟩) acc) g := rfl

theorem matchRefs_congr_nodes {g2 g1 : Graph} (L k : String) (v : PVal)
    (h : g2.nodes = g1.nodes) : matchRefs g2 L k v = matchRefs g1 L k v := by
  unfold matchRefs matchNodesByProp
  rw [h]

theorem NodeSat_congr_nodes {g2 g1 : Graph} {L : String} {key : String × PVal} {sp : Props}
    (h : g2.nodes = g1.nodes) (hs : NodeSat g1 L key sp) : NodeSat g2 L key sp := by
  unfold NodeSat at hs ⊢
  rw [h]
  exact hs

theorem StmtSat_establish (g : Graph) (st : Stmt) (hself : SelfOk st) :
    StmtSat (applyStmt g st) st := by
  cases st with
  | mergeN L key sp => exact NodeSat_mergeNode_self g L key sp
  | matchMerge mL mP mV cL cK sp rel =>
    have hok : WriterOk (cL, cK, sp) (mL, mP, mV) :=
      hself (cL, cK, sp) (by simp [stmtWrites]) (mL, mP, mV) (by simp [stmtPatterns])
    refine ⟨?_, ?_⟩
    · intro hne
      rw [applyStmt_matchMerge, mm_fold_matchRefs hok] at hne
      rw [applyStmt_matchMerge]
      exact mm_fold_NodeSat_self _ _ hne
    · intro r hr
      rw [applyStmt_matchMerge, mm_fold_matchRefs hok] at hr
      rw [applyStmt_matchMerge]
      exact mm_fold_edges_est _ _ r hr
  | matchEdge sL sP sV dL dP dV rel =>
    intro s hs t ht
    have hn : (applyStmt g (.matchEdge sL sP sV dL dP dV rel)).nodes = g.nodes := by
      rw [applyStmt_matchEdge]
      exact me_fold2_nodes _ _
    rw [matchRefs_congr_nodes _ _ _ hn] at hs ht
    rw [applyStmt_matchEdge]
    exact me_fold2_edges_est _ _ s hs t ht

theorem StmtSat_id {g : Graph} {st : Stmt} (h : StmtSat g st) : applyStmt g st = g := by
  cases st with
  | mergeN L key sp => exact mergeNode_of_NodeSat h
  | matchMerge mL mP mV cL cK sp rel =>
    obtain ⟨h1, h2⟩ := h
    rw [applyStmt_matchMerge]
    by_cases hrs : matchRefs g mL mP mV = []
    · rw [hrs]
      rfl
    · exact mm_fold_id _ _ (h1 hrs) h2
  | matchEdge sL sP sV dL dP dV rel =>
    rw [applyStmt_matchEdge]
    exact me_fold2_id _ _ h

theorem StmtSat_preserve {g : Graph} {a b : Stmt} (ha : StmtSat g a) (hd : WriteDisj a b) :
    StmtSat (applyStmt g b) a := by
  cases b with
  | mergeN L2 k2 sp2 =>
    have hw := hd (L2, k2, sp2) (by simp [stmtWrites])
    cases a with
    | mergeN L key sp =>
      have hne : (L2, k2) ≠ (L, key) := by
        simpa using hw.1 (L, key, sp) (by simp [stmtWrites])
      exact NodeSat_mergeNode_ne hne ha
    | matchMerge mL mP mV cL cK sp rel =>
      obtain ⟨h1, h2⟩ := ha
      have hok : WriterOk (L2, k2, sp2) (mL, mP, mV) :=
        hw.2 (mL, mP, mV) (by simp [stmtPatterns])
      have hne : (L2, k2) ≠ (cL, cK) := by
        simpa using hw.1 (cL, cK, sp) (by simp [stmtWrites])
      refine ⟨?_, ?_⟩
      · intro hrs
        rw [applyStmt_mergeN, matchRefs_mergeNode_ok hok] at hrs
        rw [applyStmt_mergeN]
        exact NodeSat_mergeNode_ne hne (h1 hrs)
      · intro r hr
        rw [applyStmt_mergeN, matchRefs_mergeNode_ok hok] at hr
        rw [applyStmt_mergeN, mergeNode_edges]
        exact h2 r hr
    | matchEdge sL sP sV dL dP dV rel =>
      intro s hs t ht
      have hok1 : WriterOk (L2, k2, sp2) (sL, sP, sV) :=
        hw.2 (sL, sP, sV) (by simp [stmtPatterns])
      have hok2 : WriterOk (L2, k2, sp2) (dL, dP, dV) :=
        hw.2 (dL, dP, dV) (by simp [stmtPatterns])
      rw [applyStmt_mergeN, matchRefs_mergeNode_ok hok1] at hs
      rw [applyStmt_mergeN, matchRefs_mergeNode_ok hok2] at ht
      rw [applyStmt_mergeN, mergeNode_edges]
      exact ha s hs t ht
  | matchMerge mL2 mP2 mV2 cL2 cK2 sp2 rel2 =>
    have hw := hd (cL2, cK2, sp2) (by simp [stmtWrites])
    rw [applyStmt_matchMerge]
    cases a with
    | mergeN L key sp =>
      have hne : (cL2, cK2) ≠ (L, key) := by
        simpa using hw.1 (L, key, sp) (by simp [stmtWrites])
      exact mm_fold_NodeSat_ne hne _ _ ha
    | matchMerge mL mP mV cL cK sp rel =>
      obtain ⟨h1, h2⟩ := ha
      have hok : WriterOk (cL2, cK2, sp2) (mL, mP, mV) :=
        hw.2 (mL, mP, mV) (by simp [stmtPatterns])
      have hne : (cL2, cK2) ≠ (cL, cK) := by
        simpa using hw.1 (cL, cK, sp) (by simp [stmtWrites])
      refine ⟨?_, ?_⟩
      · intro hrs
        rw [mm_fold_matchRefs hok] at hrs
        exact mm_fold_NodeSat_ne hne _ _ (h1 hrs)
      · intro r hr
        rw [mm_fold_matchRefs hok] at hr
        exact mm_fold_edges_mono _ _ (h2 r hr)
    | matchEdge sL sP sV dL dP dV rel =>
      intro s hs t ht
      have hok1 : WriterOk (cL2, cK2, sp2) (sL, sP, sV) :=
        hw.2 (sL, sP, sV) (by simp [stmtPatterns])
      have hok2 : WriterOk (cL2, cK2, sp2) (dL, dP, dV) :=
        hw.2 (dL, dP, dV) (by simp [stmtPatterns])
      rw [mm_fold_matchRefs hok1] at hs
      rw [mm_fold_matchRefs hok2] at ht
      exact mm_fold_edges_mono _ _ (ha s hs t ht)
  | matchEdge sL2 sP2 sV2 dL2 dP2 dV2 rel2 =>
    have hn : (applyStmt g (.matchEdge sL2 sP2 sV2 dL2 dP2 dV2 rel2)).nodes = g.nodes := by
      rw [applyStmt_matchEdge]
      exact me_fold2_nodes _ _
    cases a with
    | mergeN L key sp => exact NodeSat_congr_nodes hn ha
    | matchMerge mL mP mV cL cK sp rel =>
      obtain ⟨h1, h2⟩ := ha
      refine ⟨?_, ?_⟩
      · intro hrs
        rw [matchRefs_congr_nodes _ _ _ hn] at hrs
        exact NodeSat_congr_nodes hn (h1 hrs)
      · intro r hr
        rw [matchRefs_congr_nodes _ _ _ hn] at hr
        rw [applyStmt_matchEdge]
        exact me_fold2_edges_mono _ _ (h2 r hr)
    | matchEdge sL sP sV dL dP dV rel =>
      intro s hs t ht
      rw [matchRefs_congr_nodes _ _ _ hn] at hs ht
      rw [applyStmt_matchEdge]
      exact me_fold2_edges_mono _ _ (ha s hs t ht)

theorem applyStmts_cons (a : Stmt) (t : List Stmt) (g : Graph) :
    applyStmts (a :: t) g = applyStmts t (applyStmt g a) := rfl

theorem StmtSat_preserve_pass : ∀ (t : List Stmt) (g : Graph) (a : Stmt),
    StmtSat g a → (∀ b ∈ t, WriteDisj a b) → StmtSat (applyStmts t g) a := by
  intro t
  induction t with
  | nil => exact fun g a h _ => h
  | cons b t2 ih =>
    intro g a ha hd
    rw [applyStmts_cons]
    exact ih _ a (StmtSat_preserve ha (hd b (by simp))) (fun b2 h2 => hd b2 (by simp [h2]))

theorem pass_establish : ∀ (l : List Stmt) (g : Graph),
    l.Pairwise WriteDisj → (∀ st ∈ l, SelfOk st) →
    ∀ st ∈ l, StmtSat (applyStmts l g) st := by
  intro l
  induction l with
  | nil => intro g _ _ st h; cases h
  | cons a t ih =>
    intro g hp hs st hmem
    obtain ⟨hab, hp2⟩ := List.pairwise_cons.mp hp
    rw [applyStmts_cons]
    rcases List.mem_cons.mp hmem with he | ht
    · rw [he]
      exact StmtSat_preserve_pass t _ a (StmtSat_establish g a (hs a (by simp))) hab
    · exact ih _ hp2 (fun s hs2 => hs s (by simp [hs2])) st ht

theorem pass_id : ∀ (l : List Stmt) (g : Graph),
    (∀ st ∈ l, StmtSat g st) → applyStmts l g = g := by
  intro l
  induction l with
  | nil => exact fun g _ => rfl
  | cons a t ih =>
    intro g h
    rw [applyStmts_cons, StmtSat_id (h a (by simp))]
    exact ih g (fun st hst => h st (by simp [hst]))

theorem pass_idem (l : List Stmt) (g : Graph) (hp : l.Pairwise WriteDisj)
    (hs : ∀ st ∈ l, SelfOk st) :
    applyStmts l (applyStmts l g) = applyStmts l g :=
  pass_id l (applyStmts l g) (pass_establish l g hp hs)

theorem wd_to_matchEdge (a : Stmt) (sL sP : String) (sV : PVal) (dL dP : String) (dV : PVal)
    (rel : String) : WriteDisj a (.matchEdge sL sP sV dL dP dV rel) := by
  intro w hw
  simp [stmtWrites] at hw

theorem wd_repo_issue (scope : String) (r : GitHubRepository) (i : GitHubIssue) :
    WriteDisj (repoStmt r) (issueStmt scope i) := by
  intro w hw
  simp only [issueStmt, stmtWrites, List.mem_singleton] at hw
  subst hw
  constructor
  · intro w2 hw2
    simp only [repoStmt, stmtWrites, List.mem_singleton] at hw2
    subst hw2
    simp [GITHUB_LABEL_ISSUE, GITHUB_LABEL_REPOSITORY]
  · intro pat hpat
    simp [repoStmt, stmtPatterns] at hpat


theorem wd_repo_project (scope : String) (r : GitHubRepository) (p : GitHubProject) :
    WriteDisj (repoStmt r) (projectStmt scope p) := by
  intro w hw
  simp only [projectStmt, stmtWrites, List.mem_singleton] at hw
  subst hw
  constructor
  · intro w2 hw2
    simp only [repoStmt, stmtWrites, List.mem_singleton] at hw2
    subst hw2
    simp [GITHUB_LABEL_PROJECT, GITHUB_LABEL_REPOSITORY]
  · intro pat hpat
    simp [repoStmt, stmtPatterns] at hpat

theorem wd_repo_milestone (scope : String) (r : GitHubRepository) (m : GitHubMilestone) :
    WriteDisj (repoStmt r) (milestoneStmt scope m) := by
  intro w hw
  simp only [milestoneStmt, stmtWrites, List.mem_singleton] at hw
  subst hw
  constructor
  · intro w2 hw2
    simp only [repoStmt, stmtWrites, List.mem_singleton] at hw2
    subst hw2
    simp [GITHUB_LABEL_MILESTONE, GITHUB_LABEL_REPOSITORY]
  · intro pat hpat
    simp [repoStmt, stmtPatterns] at hpat

theorem wd_issue_issue (scope : String) {i j : GitHubIssue} (hne : i.id ≠ j.id) :
    WriteDisj (issueStmt scope i) (issueStmt scope j) := by
  intro w hw
  simp only [issueStmt, stmtWrites, List.mem_singleton] at hw
  subst hw
  constructor
  · intro w2 hw2
    simp only [issueStmt, stmtWrites, List.mem_singleton] at hw2
    subst hw2
    simp [Prod.mk.injEq, Ne.symm hne]
  · intro pat hpat
    simp only [issueStmt, stmtPatterns, List.mem_singleton] at hpat
    subst hpat
    exact Or.inl (by simp [GITHUB_LABEL_ISSUE, GITHUB_LABEL_REPOSITORY])

theorem wd_issue_project (scope : String) (i : GitHubIssue) (p : GitHubProject) :
    WriteDisj (issueStmt scope i) (projectStmt scope p) := by
  intro w hw
  simp only [projectStmt, stmtWrites, List.mem_singleton] at hw
  subst hw
  constructor
  · intro w2 hw2
    simp only [issueStmt, stmtWrites, List.mem_singleton] at hw2
    subst hw2
    simp [GITHUB_LABEL_PROJECT, GITHUB_LABEL_ISSUE]
  · intro pat hpat
    simp only [issueStmt, stmtPatterns, List.mem_singleton] at hpat
    subst hpat
    exact Or.inl (by simp [GITHUB_LABEL_PROJECT, GITHUB_LABEL_REPOSITORY])

theorem wd_issue_milestone (scope : String) (i : GitHubIssue) (m : GitHubMilestone) :
    WriteDisj (issueStmt scope i) (milestoneStmt scope m) := by
  intro w hw
  simp only [milestoneStmt, stmtWrites, List.mem_singleton] at hw
  subst hw
  constructor
  · intro w2 hw2
    simp only [issueStmt, stmtWrites, List.mem_singleton] at hw2
    subst hw2
    simp [GITHUB_LABEL_MILESTONE, GITHUB_LABEL_ISSUE]
  · intro pat hpat
    simp only [issueStmt, stmtPatterns, List.mem_singleton] at hpat
    subst hpat
    exact Or.inl (by simp [GITHUB_LABEL_MILESTONE, GITHUB_LABEL_REPOSITORY])

theorem wd_project_project (scope : String) {p q : GitHubProject} (hne : p.id ≠ q.id) :
    WriteDisj (projectStmt scope p) (projectStmt scope q) := by
  intro w hw
  simp only [projectStmt, stmtWrites, List.mem_singleton] at hw
  subst hw
  constructor
  · intro w2 hw2
    simp only [projectStmt, stmtWrites, List.mem_singleton] at hw2
    subst hw2
    simp [Prod.mk.injEq, Ne.symm hne]
  · intro pat hpat
    simp only [projectStmt, stmtPatterns, List.mem_singleton] at hpat
    subst hpat
    exact Or.inl (by simp [GITHUB_LABEL_PROJECT, GITHUB_LABEL_REPOSITORY])

theorem wd_project_milestone (scope : String) (p : GitHubProject) (m : GitHubMilestone) :
    WriteDisj (projectStmt scope p) (milestoneStmt scope m) := by
  intro w hw
  simp only [milestoneStmt, stmtWrites, List.mem_singleton] at hw
  subst hw
  constructor
  · intro w2 hw2
    simp only [projectStmt, stmtWrites, List.mem_singleton] at hw2
    subst hw2
    simp [GITHUB_LABEL_MILESTONE, GITHUB_LABEL_PROJECT]
  · intro pat hpat
    simp only [projectStmt, stmtPatterns, List.mem_singleton] at hpat
    subst hpat
    exact Or.inl (by simp [GITHUB_LABEL_MILESTONE, GITHUB_LABEL_REPOSITORY])

theorem wd_milestone_milestone (scope : String) {m n : GitHubMilestone} (hne : m.id ≠ n.id) :
    WriteDisj (milestoneStmt scope m) (milestoneStmt scope n) := by
  intro w hw
  simp only [milestoneStmt, stmtWrites, List.mem_singleton] at hw
  subst hw
  constructor
  · intro w2 hw2
    simp only [milestoneStmt, stmtWrites, List.mem_singleton] at hw2
    subst hw2
    simp [Prod.mk.injEq, Ne.symm hne]
  · intro pat hpat
    simp only [milestoneStmt, stmtPatterns, List.mem_singleton] at hpat
    subst hpat
    exact Or.inl (by simp [GITHUB_LABEL_MILESTONE, GITHUB_LABEL_REPOSITORY])

theorem selfok_mergeN (L : String) (key : String × PVal) (sp : Props) :
    SelfOk (.mergeN L key sp) := by
  intro w hw pat hpat
  simp [stmtPatterns] at hpat

theorem selfok_matchEdge (sL sP : String) (sV : PVal) (dL dP : String) (dV : PVal)
    (rel : String) : SelfOk (.matchEdge sL sP sV dL dP dV rel) := by
  intro w hw
  simp [stmtWrites] at hw

theorem selfok_issue (scope : String) (i : GitHubIssue) : SelfOk (issueStmt scope i) := by
  intro w hw pat hpat
  simp only [issueStmt, stmtWrites, List.mem_singleton] at hw
  simp only [issueStmt, stmtPatterns, List.mem_singleton] at hpat
  subst hw
  subst hpat
  exact Or.inl (by simp [GITHUB_LABEL_ISSUE, GITHUB_LABEL_REPOSITORY])

theorem selfok_project (scope : String) (p : GitHubProject) : SelfOk (projectStmt scope p) := by
  intro w hw pat hpat
  simp only [projectStmt, stmtWrites, List.mem_singleton] at hw
  simp only [projectStmt, stmtPatterns, List.mem_singleton] at hpat
  subst hw
  subst hpat
  exact Or.inl (by simp [GITHUB_LABEL_PROJECT, GITHUB_LABEL_REPOSITORY])

theorem selfok_milestone (scope : String) (m : GitHubMilestone) :
    SelfOk (milestoneStmt scope m) := by
  intro w hw pat hpat
  simp only [milestoneStmt, stmtWrites, List.mem_singleton] at hw
  simp only [milestoneStmt, stmtPatterns, List.mem_singleton] at hpat
  subst hw
  subst hpat
  exact Or.inl (by simp [GITHUB_LABEL_MILESTONE, GITHUB_LABEL_REPOSITORY])

theorem wd_epic_epic {e1 e2 : JiraIssue} (hne : e1.key ≠ e2.key) :
    WriteDisj (epicStmt e1) (epicStmt e2) := by
  intro w hw
  simp only [epicStmt, stmtWrites, List.mem_singleton] at hw
  subst hw
  constructor
  · intro w2 hw2
    simp only [epicStmt, stmtWrites, List.mem_singleton] at hw2
    subst hw2
    simp [Prod.mk.injEq, Ne.symm hne]
  · intro pat hpat
    simp [epicStmt, stmtPatterns] at hpat

theorem wd_epic_storyNode (e s : JiraIssue) :
    WriteDisj (epicStmt e) (storyNodeStmt s) := by
  intro w hw
  simp only [storyNodeStmt, stmtWrites, List.mem_singleton] at hw
  subst hw
  constructor
  · intro w2 hw2
    simp only [epicStmt, stmtWrites, List.mem_singleton] at hw2
    subst hw2
    simp
  · intro pat hpat
    simp [epicStmt, stmtPatterns] at hpat

theorem wd_storyNode_storyNode {s1 s2 : JiraIssue} (hne : s1.key ≠ s2.key) :
    WriteDisj (storyNodeStmt s1) (storyNodeStmt s2) := by
  intro w hw
  simp only [storyNodeStmt, stmtWrites, List.mem_singleton] at hw
  subst hw
  constructor
  · intro w2 hw2
    simp only [storyNodeStmt, stmtWrites, List.mem_singleton] at hw2
    subst hw2
    simp [Prod.mk.injEq, Ne.symm hne]
  · intro pat hpat
    simp [storyNodeStmt, stmtPatterns] at hpat

theorem wd_storyEdge_storyNode (sk pk : String) {s2 : JiraIssue} (hne : sk ≠ s2.key) :
    WriteDisj (storyEdgeStmt sk pk) (storyNodeStmt s2) := by
  intro w hw
  simp only [storyNodeStmt, stmtWrites, List.mem_singleton] at hw
  subst hw
  constructor
  · intro w2 hw2
    simp [storyEdgeStmt, stmtWrites] at hw2
  · intro pat hpat
    simp only [storyEdgeStmt, stmtPatterns, List.mem_cons, List.mem_singleton] at hpat
    rcases hpat with h | h
    · subst h
      exact Or.inr (Or.inl ⟨rfl, by simp [Ne.symm hne]⟩)
    · rcases h with h | h
      · subst h
        exact Or.inl (by simp)
      · cases h

theorem wd_epic_storyEdge (e : JiraIssue) (sk pk : String) :
    WriteDisj (epicStmt e) (storyEdgeStmt sk pk) :=
  wd_to_matchEdge _ _ _ _ _ _ _ _

theorem wd_storyNode_storyEdge (s : JiraIssue) (sk pk : String) :
    WriteDisj (storyNodeStmt s) (storyEdgeStmt sk pk) :=
  wd_to_matchEdge _ _ _ _ _ _ _ _

theorem collect_repository_data_store_stmts (scope : String) (r : GitHubRepository)
    (issues : List GitHubIssue) (projects : List GitHubProject)
    (milestones : List GitHubMilestone) (g : Graph) :
    collect_repository_data_store scope r issues projects milestones g =
      applyStmts (githubStmts scope r issues projects milestones) g := by
  unfold collect_repository_data_store collect_repository_store collect_issues_store
    collect_projects_store collect_milestones_store githubStmts applyStmts
  simp [GITHUB_COLLECT_ISSUES, GITHUB_COLLECT_PROJECTS, GITHUB_COLLECT_MILESTONES,
    List.foldl_append]

theorem store_epics_and_stories_stmts (epics stories : List JiraIssue) (g : Graph) :
    store_epics_and_stories epics stories g = applyStmts (jiraStmts epics stories) g := rfl

theorem githubStmts_pairwise (scope : String) (r : GitHubRepository)
    {issues : List GitHubIssue} {projects : List GitHubProject}
    {milestones : List GitHubMilestone}
    (h1 : (issues.map GitHubIssue.id).Nodup)
    (h2 : (projects.map GitHubProject.id).Nodup)
    (h3 : (milestones.map GitHubMilestone.id).Nodup) :
    (githubStmts scope r issues projects milestones).Pairwise WriteDisj := by
  unfold githubStmts
  rw [List.pairwise_cons]
  constructor
  · intro b hb
    rcases List.mem_append.mp hb with hb2 | hb2
    · rcases List.mem_append.mp hb2 with hb3 | hb3
      · obtain ⟨i, _, rfl⟩ := List.mem_map.mp hb3
        exact wd_repo_issue scope r i
      · obtain ⟨p, _, rfl⟩ := List.mem_map.mp hb3
        exact wd_repo_project scope r p
    · obtain ⟨m, _, rfl⟩ := List.mem_map.mp hb2
      exact wd_repo_milestone scope r m
  · rw [List.pairwise_append]
    refine ⟨?_, ?_, ?_⟩
    · rw [List.pairwise_append]
      refine ⟨?_, ?_, ?_⟩
      · rw [List.pairwise_map]
        exact (List.pairwise_map.mp h1).imp (fun hne => wd_issue_issue scope hne)
      · rw [List.pairwise_map]
        exact (List.pairwise_map.mp h2).imp (fun hne => wd_project_project scope hne)
      · intro a ha b hb
        obtain ⟨i, _, rfl⟩ := List.mem_map.mp ha
        obtain ⟨p, _, rfl⟩ := List.mem_map.mp hb
        exact wd_issue_project scope i p
    · rw [List.pairwise_map]
      exact (List.pairwise_map.mp h3).imp (fun hne => wd_milestone_milestone scope hne)
    · intro a ha b hb
      obtain ⟨m, _, rfl⟩ := List.mem_map.mp hb
      rcases List.mem_append.mp ha with ha2 | ha2
      · obtain ⟨i, _, rfl⟩ := List.mem_map.mp ha2
        exact wd_issue_milestone scope i m
      · obtain ⟨p, _, rfl⟩ := List.mem_map.mp ha2
        exact wd_project_milestone scope p m

theorem githubStmts_selfok (scope : String) (r : GitHubRepository)
    (issues : List GitHubIssue) (projects : List GitHubProject)
    (milestones : List GitHubMilestone) :
    ∀ st ∈ githubStmts scope r issues projects milestones, SelfOk st := by
  intro st hst
  unfold githubStmts at hst
  rcases List.mem_cons.mp hst with he | hm
  · rw [he]
    exact selfok_mergeN _ _ _
  · rcases List.mem_append.mp hm with hm2 | hm2
    · rcases List.mem_append.mp hm2 with hm3 | hm3
      · obtain ⟨i, _, rfl⟩ := List.mem_map.mp hm3
        exact selfok_issue scope i
      · obtain ⟨p, _, rfl⟩ := List.mem_map.mp hm3
        exact selfok_project scope p
    · obtain ⟨m, _, rfl⟩ := List.mem_map.mp hm2
      exact selfok_milestone scope m

theorem mem_storyStmts {x : Stmt} {s : JiraIssue} (h : x ∈ storyStmts s) :
    x = storyNodeStmt s ∨ ∃ pk, x = storyEdgeStmt s.key pk := by
  unfold storyStmts at h
  cases hpk : s.parent_key with
  | none =>
    rw [hpk] at h
    simp only [List.mem_singleton] at h
    exact Or.inl h
  | some pk =>
    rw [hpk] at h
    rcases List.mem_cons.mp h with h2 | h2
    · exact Or.inl h2
    · simp only [List.mem_singleton] at h2
      exact Or.inr ⟨pk, h2⟩

theorem jiraStmts_pairwise {epics stories : List JiraIssue}
    (h1 : (epics.map JiraIssue.key).Nodup) (h2 : (stories.map JiraIssue.key).Nodup) :
    (jiraStmts epics stories).Pairwise WriteDisj := by
  unfold jiraStmts
  rw [List.pairwise_append]
  refine ⟨?_, ?_, ?_⟩
  · rw [List.pairwise_map]
    exact (List.pairwise_map.mp h1).imp (fun hne => wd_epic_epic hne)
  · rw [List.flatMap_def, List.pairwise_flatten]
    constructor
    · intro l hl
      obtain ⟨s, _, rfl⟩ := List.mem_map.mp hl
      unfold storyStmts
      cases s.parent_key with
      | none => simp
      | some pk =>
        rw [List.pairwise_cons]
        refine ⟨?_, by simp⟩
        intro b hb
        simp only [List.mem_singleton] at hb
        subst hb
        exact wd_storyNode_storyEdge s s.key pk
    · rw [List.pairwise_map]
      refine (List.pairwise_map.mp h2).imp ?_
      intro s1 s2 hne x hx y hy
      rcases mem_storyStmts hx with hx2 | ⟨pk1, hx2⟩ <;>
        rcases mem_storyStmts hy with hy2 | ⟨pk2, hy2⟩ <;> subst hx2 <;> subst hy2
      · exact wd_storyNode_storyNode hne
      · exact wd_storyNode_storyEdge s1 s2.key pk2
      · exact wd_storyEdge_storyNode s1.key pk1 hne
      · exact wd_to_matchEdge _ _ _ _ _ _ _ _
  · intro a ha b hb
    obtain ⟨e, _, rfl⟩ := List.mem_map.mp ha
    obtain ⟨s, _, hbs⟩ := List.mem_flatMap.mp hb
    rcases mem_storyStmts hbs with hb2 | ⟨pk, hb2⟩ <;> subst hb2
    · exact wd_epic_storyNode e s
    · exact wd_epic_storyEdge e s.key pk

theorem jiraStmts_selfok (epics stories : List JiraIssue) :
    ∀ st ∈ jiraStmts epics stories, SelfOk st := by
  intro st hst
  unfold jiraStmts at hst
  rcases List.mem_append.mp hst with hm | hm
  · obtain ⟨e, _, rfl⟩ := List.mem_map.mp hm
    exact selfok_mergeN _ _ _
  · obtain ⟨s, _, hbs⟩ := List.mem_flatMap.mp hm
    rcases mem_storyStmts hbs with hb2 | ⟨pk, hb2⟩ <;> subst hb2
    · exact selfok_mergeN _ _ _
    · exact selfok_matchEdge _ _ _ _ _ _ _

/-- Claim C1: collecting the same scope twice leaves exactly the graph of a
single collection — node and edge lists are equal, so no node with a given
identity key is duplicated and no second edge of a relationship type appears
between the same ordered pair — for the GitHub collection pass (repository,
issues, projects, milestones) and for the Jira epic/story pass, given that
each entity stream carries distinct identity keys within its kind. -/
theorem collection_idempotent :
    (∀ (g : Graph) (scope : String) (r : GitHubRepository) (issues : List GitHubIssue)
        (projects : List GitHubProject) (milestones : List GitHubMilestone),
        (issues.map GitHubIssue.id).Nodup → (projects.map GitHubProject.id).Nodup →
        (milestones.map GitHubMilestone.id).Nodup →
        collect_repository_data_store scope r issues projects milestones
          (collect_repository_data_store scope r issues projects milestones g) =
          collect_repository_data_store scope r issues projects milestones g) ∧
    (∀ (g : Graph) (epics stories : List JiraIssue),
        (epics.map JiraIssue.key).Nodup → (stories.map JiraIssue.key).Nodup →
        store_epics_and_stories epics stories (store_epics_and_stories epics stories g) =
          store_epics_and_stories epics stories g) := by
  constructor
  · intro g scope r issues projects milestones h1 h2 h3
    simp only [collect_repository_data_store_stmts]
    exact pass_idem _ _ (githubStmts_pairwise scope r h1 h2 h3)
      (githubStmts_selfok scope r issues projects milestones)
  · intro g epics stories h1 h2
    simp only [store_epics_and_stories_stmts]
    exact pass_idem _ _ (jiraStmts_pairwise h1 h2) (jiraStmts_selfok epics stories)

/-- Claim C1, witness. -/
theorem collection_idempotent_witness :
    collect_repository_data_store "acme/widgets"
        ⟨1, "widgets", "acme/widgets", none, false, "u",
          ⟨2023, 1, 1, 0, 0, 0, 0, some 0⟩, ⟨2023, 1, 1, 0, 0, 0, 0, some 0⟩⟩
        [⟨7, 7, "Crash on save", none, "open", [], [],
          ⟨2023, 1, 1, 0, 0, 0, 0, some 0⟩, ⟨2023, 1, 1, 0, 0, 0, 0, some 0⟩, none⟩] [] []
        (collect_repository_data_store "acme/widgets"
          ⟨1, "widgets", "acme/widgets", none, false, "u",
            ⟨2023, 1, 1, 0, 0, 0, 0, some 0⟩, ⟨2023, 1, 1, 0, 0, 0, 0, some 0⟩⟩
          [⟨7, 7, "Crash on save", none, "open", [], [],
            ⟨2023, 1, 1, 0, 0, 0, 0, some 0⟩, ⟨2023, 1, 1, 0, 0, 0, 0, some 0⟩, none⟩] [] []
          emptyGraphStore) =
      collect_repository_data_store "acme/widgets"
        ⟨1, "widgets", "acme/widgets", none, false, "u",
          ⟨2023, 1, 1, 0, 0, 0, 0, some 0⟩, ⟨2023, 1, 1, 0, 0, 0, 0, some 0⟩⟩
        [⟨7, 7, "Crash on save", none, "open", [], [],
          ⟨2023, 1, 1, 0, 0, 0, 0, some 0⟩, ⟨2023, 1, 1, 0, 0, 0, 0, some 0⟩, none⟩] [] []
        emptyGraphStore ∧
    store_epics_and_stories
        [⟨"PROJ-1", "epic", none, "Epic", "Open", none, "r", "c", "u", [], none, none⟩]
        [⟨"PROJ-2", "story", none, "Story", "Open", none, "r", "c", "u", [], none, some "PROJ-1"⟩]
        (store_epics_and_stories
          [⟨"PROJ-1", "epic", none, "Epic", "Open", none, "r", "c", "u", [], none, none⟩]
          [⟨"PROJ-2", "story", none, "Story", "Open", none, "r", "c", "u", [], none, some "PROJ-1"⟩]
          emptyGraphStore) =
      store_epics_and_stories
        [⟨"PROJ-1", "epic", none, "Epic", "Open", none, "r", "c", "u", [], none, none⟩]
        [⟨"PROJ-2", "story", none, "Story", "Open", none, "r", "c", "u", [], none, some "PROJ-1"⟩]
        emptyGraphStore :=
  ⟨collection_idempotent.1 emptyGraphStore "acme/widgets" _ _ _ _
      (by decide) (by decide) (by decide),
    collection_idempotent.2 emptyGraphStore _ _ (by decide) (by decide)⟩
